import Mathlib

/-!
Verification of the LaunchSecure scan core: the output normalizer
(extractControls in src/lib/powerpipe.ts), the coverage verifier
(runPowerpipeBenchmark, same file), the scan orchestrator (executeScan and
the scan routes in src/routes/scans.ts), the history archiver and the
metadata merger. Definitions below are shallow embeddings of the
TypeScript source; machine integers are modelled as Nat (counts are
non-negative and never overflow at the sizes involved), nullable values as
Option, and thrown errors as Except. JavaScript truthiness on nullable
strings is modelled explicitly: null and the empty string are falsy.
-/

namespace LaunchSecure

/-- Truthiness of a nullable string in JavaScript: null and "" are falsy. -/
def jsTruthy (s : Option String) : Bool :=
  match s with
  | some v => v ≠ ""
  | none => false

/-- JavaScript `a || b` on nullable strings. -/
def jsOr (a b : Option String) : Option String :=
  if jsTruthy a then a else b

/-- JavaScript `a || null` on nullable strings: falsy values collapse to null. -/
def jsOrNull (a : Option String) : Option String :=
  if jsTruthy a then a else none

/-- Substring test on character lists, mirroring JavaScript String.includes. -/
def charsContain (hay needle : List Char) : Bool :=
  (List.range (hay.length + 1)).any (fun i => needle.isPrefixOf (hay.drop i))

/-- Substring test on strings, mirroring JavaScript String.includes. -/
def strContains (hay needle : String) : Bool :=
  charsContain hay.toList needle.toList

/-- Lower-casing, mirroring JavaScript toLowerCase on the ASCII texts
involved, written as a character-list map. -/
def strToLower (s : String) : String :=
  String.mk (s.data.map Char.toLower)

/-! ## Output Normalizer (extractControls in src/lib/powerpipe.ts)

The raw engine output is a recursively nested tree of groups; each node may
carry a controls array and a groups array. A raw control carries optional
summary counts, an optional results array and an optional run_error.
Absent string fields that the source defaults with `|| ''` are modelled as
the empty string; absent arrays and nullable strings as Option. Summary
counts that may be absent are modelled as 0, which behaves identically
under the only operations applied to them (comparisons with 0). -/

/-- One element of a raw control's results array. -/
structure RawResult where
  reason : Option String
deriving DecidableEq, Repr

/-- Engine-reported sub-resource counts of one control. -/
structure RawSummary where
  alarm : Nat
  ok : Nat
  error : Nat
deriving DecidableEq, Repr

/-- One control as it appears in the raw engine output. -/
structure RawControl where
  control_id : String
  title : String
  description : String
  summary : Option RawSummary
  results : Option (List RawResult)
  run_error : Option String
deriving DecidableEq, Repr

/-- The nested group tree of one raw benchmark result. -/
inductive RawItem : Type where
  | node (controls : List RawControl) (groups : List RawItem) : RawItem

/-- Scan status of a normalized control. -/
inductive Status where
  | pass
  | fail
  | error
  | skip
deriving DecidableEq, Repr

/-- Status derivation from the engine summary, as written in the source:
alarm beats error beats ok beats skip; a missing summary derives to skip. -/
def deriveStatus (s : Option RawSummary) : Status :=
  match s with
  | some sm =>
      if sm.alarm > 0 then .fail
      else if sm.error > 0 then .error
      else if sm.ok > 0 then .pass
      else .skip
  | none => .skip

/-- The reason of the first element of the results array, if any. -/
def firstReason (c : RawControl) : Option String :=
  (c.results.bind List.head?).bind RawResult.reason

/-- Lower-cased reason or run_error text used for permission classification. -/
def errorTextOf (c : RawControl) : String :=
  strToLower ((jsOr (firstReason c) c.run_error).getD "")

/-- The fixed vocabulary of access-denial phrases from the source. -/
def permissionErrorKeywords : List String :=
  [ "accessdenied"
  , "access denied"
  , "unauthorizedoperation"
  , "unauthorized operation"
  , "invaliduserid.notfound"
  , "accessdeniedexception"
  , "forbidden"
  , "insufficient permissions"
  , "permission denied"
  , "user is not authorized"
  , "not authorized to perform"
  , "unauthorized: access is denied" ]

/-- Whether the control's error text matches any access-denial phrase. -/
def isPermissionError (c : RawControl) : Bool :=
  permissionErrorKeywords.any (fun k => strContains (errorTextOf c) k)

/-- Error-type tag chosen in the priority order of the source. -/
def errorTypeOf (c : RawControl) : Option String :=
  if isPermissionError c then
    let et := errorTextOf c
    if strContains et "accessdenied" || strContains et "access denied" then
      some "AccessDenied"
    else if strContains et "unauthorized" then
      some "UnauthorizedOperation"
    else if strContains et "forbidden" then
      some "Forbidden"
    else
      some "PermissionError"
  else none

/-- One normalized control record (transformedControl in the source). -/
structure NControl where
  control_id : String
  title : String
  description : String
  status : Status
  reason : Option String
  resources : Option (List RawResult)
  permission_error : Bool
  error_type : Option String
deriving DecidableEq, Repr

/-- The per-control transformation applied when a control is stored. -/
def transformControl (c : RawControl) : NControl :=
  { control_id := c.control_id
    title := c.title
    description := c.description
    status := deriveStatus c.summary
    reason := jsOrNull (jsOr (firstReason c) c.run_error)
    resources := c.results
    permission_error := isPermissionError c
    error_type := errorTypeOf c }

/-- Whether the occurrence carries non-empty evidence
(`control.results && control.results.length > 0`). -/
def hasResults (c : RawControl) : Bool :=
  match c.results with
  | some l => !l.isEmpty
  | none => false

/-- Insertion-ordered map from control id to normalized control, modelling
the JavaScript Map: setting an existing key replaces in place, a new key is
appended. -/
abbrev CMap : Type := List (String × NControl)

/-- Whether the map has a binding for the key. -/
def mapHas (m : CMap) (k : String) : Bool :=
  m.any (fun p => p.1 == k)

/-- Map insertion with JavaScript Map semantics: an existing binding is
replaced in place, a new key is appended at the end. -/
def mapSet : CMap → String → NControl → CMap
  | [], k, v => [(k, v)]
  | p :: t, k, v => if p.1 == k then (k, v) :: t else p :: mapSet t k v

/-- Lookup in the control map. -/
def mapLookup (m : CMap) (k : String) : Option NControl :=
  (m.find? (fun p => p.1 == k)).map Prod.snd

/-- Processing of one raw control occurrence: skip controls without ids; add
when the id is unseen or when this occurrence carries non-empty results. -/
def processControl (m : CMap) (c : RawControl) : CMap :=
  if c.control_id = "" then m
  else if !(mapHas m c.control_id) || hasResults c then
    mapSet m c.control_id (transformControl c)
  else m

mutual

/-- Depth-first extraction over one tree node: the node's controls first,
then its nested groups, exactly as the recursive extractControls closure. -/
def extractItem : CMap → RawItem → CMap
  | m, .node cs gs => extractGroups (cs.foldl processControl m) gs

/-- Depth-first extraction over a list of nested groups, in order. -/
def extractGroups : CMap → List RawItem → CMap
  | m, [] => m
  | m, g :: gs => extractGroups (extractItem m g) gs

end

/-- The full normalization of one raw result tree, starting from an empty
map at the root. -/
def extractControls (root : RawItem) : CMap :=
  extractItem [] root

/-- The emitted control list (Array.from of the map values). -/
def allControls (root : RawItem) : List NControl :=
  (extractControls root).map Prod.snd

/-! ## Coverage Verifier (verification section of runPowerpipeBenchmark)

The static expected-range table EXPECTED_CONTROL_RANGES and the warning
logic. The source compares the integer control count against
min * 0.8 and max * 1.2 in JavaScript doubles; for every entry of the
table these products are exact, so the comparisons are equivalent to the
integer comparisons 5 * total < 4 * min and 5 * total > 6 * max used
below. The high-error-rate comparison errors > total * 0.2 is likewise
equivalent to 5 * errors > total for integers. Warnings are modelled as
tags carrying the numbers interpolated into the message text. -/

/-- Expected control-count ranges for the aws provider. -/
def awsRanges : List (String × (Nat × Nat)) :=
  [ ("HIPAA", (130, 350)), ("SOC2", (150, 250)), ("ISO27001", (100, 200))
  , ("CIS", (100, 200)), ("NIST", (200, 400)), ("PCI-DSS", (100, 200))
  , ("GDPR", (80, 150)), ("FedRAMP", (200, 400)) ]

/-- Expected control-count ranges for the azure provider. -/
def azureRanges : List (String × (Nat × Nat)) :=
  [ ("HIPAA", (120, 300)), ("SOC2", (120, 200)), ("ISO27001", (80, 150))
  , ("CIS", (80, 150)), ("NIST", (150, 300)), ("PCI-DSS", (80, 150)) ]

/-- Expected control-count ranges for the gcp provider. -/
def gcpRanges : List (String × (Nat × Nat)) :=
  [ ("HIPAA", (120, 300)), ("SOC2", (120, 200)), ("ISO27001", (80, 150))
  , ("CIS", (80, 150)), ("NIST", (150, 300)) ]

/-- The static EXPECTED_CONTROL_RANGES table keyed by provider. -/
def expectedControlRanges : List (String × List (String × (Nat × Nat))) :=
  [ ("aws", awsRanges), ("azure", azureRanges), ("gcp", gcpRanges) ]

/-- Range lookup for a (provider, framework) pair. -/
def rangeLookup (provider framework : String) : Option (Nat × Nat) :=
  (expectedControlRanges.lookup provider).bind (fun pm => pm.lookup framework)

/-- A verification warning, tagged with the numbers named in its text. -/
inductive CoverageWarning where
  | countSignificantlyBelow (total min max : Nat)
  | countSlightlyBelow (total min : Nat)
  | countAboveMax (total max : Nat)
  | permissionIssues (count : Nat)
  | highErrorRate (errs total : Nat)
deriving DecidableEq, Repr

/-- The verification block attached to one benchmark result. -/
structure VerificationResult where
  control_count_valid : Bool
  expected_range : Option (Nat × Nat)
  permission_issues_detected : Bool
  warnings : List CoverageWarning
deriving DecidableEq, Repr

/-- Count verification against the static table: no table entry skips count
verification; below 80 percent of the minimum is invalid with a strong
warning; below the minimum is a mild warning; above 120 percent of the
maximum is a warning; the verdict stays valid in all but the first case. -/
def countVerification (range : Option (Nat × Nat)) (totalControls : Nat) :
    Bool × List CoverageWarning :=
  match range with
  | some (mn, mx) =>
      if 5 * totalControls < 4 * mn then
        (false, [.countSignificantlyBelow totalControls mn mx])
      else if totalControls < mn then
        (true, [.countSlightlyBelow totalControls mn])
      else if 5 * totalControls > 6 * mx then
        (true, [.countAboveMax totalControls mx])
      else (true, [])
  | none => (true, [])

/-- The full verification step of runPowerpipeBenchmark: count checks, the
permission-error warning and the high-error-rate warning, in source order. -/
def verifyCoverage (providerKey frameworkKey : Option String)
    (totalControls permissionErrors errorControls : Nat) : VerificationResult :=
  let range : Option (Nat × Nat) :=
    match providerKey, frameworkKey with
    | some p, some f => rangeLookup p f
    | _, _ => none
  let cv := countVerification range totalControls
  let ws := cv.2
    ++ (if permissionErrors > 0 then [.permissionIssues permissionErrors] else [])
    ++ (if 5 * errorControls > totalControls then
          [.highErrorRate errorControls totalControls] else [])
  { control_count_valid := cv.1
    expected_range := range
    permission_issues_detected := permissionErrors > 0
    warnings := ws }

/-- Framework key extraction from the benchmark name. -/
def deriveFrameworkKey (benchmarkName : String) : Option String :=
  let bl := strToLower benchmarkName
  if strContains bl "hipaa" || strContains bl "hipaa_security" then some "HIPAA"
  else if strContains bl "soc_2" || strContains bl "soc2" then some "SOC2"
  else if strContains bl "iso_27001" || strContains bl "iso27001" then some "ISO27001"
  else if strContains bl "cis" then some "CIS"
  else if strContains bl "nist" then some "NIST"
  else if strContains bl "pci_dss" || strContains bl "pci" then some "PCI-DSS"
  else if strContains bl "gdpr" then some "GDPR"
  else if strContains bl "fedramp" then some "FedRAMP"
  else none

/-- Provider key extraction from the benchmark name. -/
def deriveProviderKey (benchmarkName : String) : Option String :=
  if strContains benchmarkName "aws_compliance" then some "aws"
  else if strContains benchmarkName "azure_compliance" then some "azure"
  else if strContains benchmarkName "gcp_compliance" then some "gcp"
  else none

/-! ## Framework-to-benchmark mapping (getBenchmarkName) -/

/-- The static FRAMEWORK_TO_BENCHMARK table. -/
def frameworkToBenchmark : List (String × List (String × String)) :=
  [ ("aws",
     [ ("HIPAA", "aws_compliance.benchmark.hipaa_security_rule_2003")
     , ("SOC2", "aws_compliance.benchmark.soc_2")
     , ("ISO27001", "aws_compliance.benchmark.iso_27001")
     , ("CIS", "aws_compliance.benchmark.cis_v140")
     , ("NIST", "aws_compliance.benchmark.nist_800_53_rev_5")
     , ("PCI-DSS", "aws_compliance.benchmark.pci_dss_v321")
     , ("GDPR", "aws_compliance.benchmark.gdpr")
     , ("FedRAMP", "aws_compliance.benchmark.fedramp_moderate_rev_4") ])
  , ("azure",
     [ ("HIPAA", "azure_compliance.benchmark.hipaa")
     , ("SOC2", "azure_compliance.benchmark.soc_2")
     , ("ISO27001", "azure_compliance.benchmark.iso_27001")
     , ("CIS", "azure_compliance.benchmark.cis_v200")
     , ("NIST", "azure_compliance.benchmark.nist_800_53_rev_5")
     , ("PCI-DSS", "azure_compliance.benchmark.pci_dss_v321") ])
  , ("gcp",
     [ ("HIPAA", "gcp_compliance.benchmark.hipaa")
     , ("SOC2", "gcp_compliance.benchmark.soc_2")
     , ("ISO27001", "gcp_compliance.benchmark.iso_27001")
     , ("CIS", "gcp_compliance.benchmark.cis_v200")
     , ("NIST", "gcp_compliance.benchmark.nist_800_53_rev_5") ]) ]

/-- Lookup of the benchmark identifier for a (framework, provider) pair;
absence of an entry means the pair is skipped. -/
def getBenchmarkName (framework provider : String) : Option String :=
  match frameworkToBenchmark.lookup (strToLower provider) with
  | none => none
  | some pm => pm.lookup framework

/-! ## Scan Orchestrator (src/routes/scans.ts)

The relational store is modelled as lists of rows. Wall-clock reads are
modelled by a stream elapsedAt : Nat to Nat giving the elapsed
milliseconds observed at the k-th clock read of the run (the source
computes the first from the stored started_at and the later ones from the
in-process start time; both are elapsed durations compared against the
same budget). The external engine invocation is an oracle returning
either a benchmark result or a thrown error message. Timestamps that no
claim inspects (started_at, completed_at, created_at) are omitted. -/

/-- Scan lifecycle status. -/
inductive ScanStatus where
  | in_progress
  | completed
  | failed
deriving DecidableEq, Repr

/-- One compliance_checks row. -/
structure Check where
  id : String
  client_id : String
  frameworks : List String
  status : ScanStatus
  total_controls : Nat
  passed_controls : Nat
  failed_controls : Nat
  error_controls : Nat
  skip_controls : Nat
  verification_warnings : List String
deriving DecidableEq, Repr

/-- One findings row. -/
structure Finding where
  client_id : String
  compliance_check_id : String
  control_id : String
  control_title : String
  control_description : Option String
  framework : String
  domain : Option String
  category : Option String
  scan_status : Status
  scan_reason : Option String
  scan_resources : Option (List RawResult)
  remediation_status : String
  assigned_owner_id : Option String
  notes : Option String
  status_history : String
  ai_business_context : Option String
  ai_remediation_guidance : Option String
deriving DecidableEq, Repr

/-- One findings_history row: a full snapshot of an archived finding plus
the id of the scan that archived it. -/
structure HistoryRow where
  snapshot : Finding
  archived_by_scan_id : String
deriving DecidableEq, Repr

/-- One control_metadata row. -/
structure MetadataRow where
  client_id : String
  control_id : String
  remediation_status : Option String
  assigned_owner_id : Option String
  notes : Option String
  status_history : Option String
  ai_business_context : Option String
  ai_remediation_guidance : Option String
deriving DecidableEq, Repr

/-- One clients row (the fields the scan routes read). -/
structure Client where
  id : String
  assigned_frameworks : List String
deriving DecidableEq, Repr

/-- One credentials row (the fields the scan routes read). -/
structure CredRow where
  id : String
  client_id : String
  provider : String
  is_active : Bool
deriving DecidableEq, Repr

/-- A decrypted credential handed to the engine oracle. -/
structure Credential where
  id : String
  provider : String
deriving DecidableEq, Repr

/-- The relational store. -/
structure DB where
  clients : List Client
  credentials : List CredRow
  checks : List Check
  findings : List Finding
  findings_history : List HistoryRow
  control_metadata : List MetadataRow
deriving DecidableEq, Repr

/-- One engine invocation result: the normalized controls plus the
verification warnings attached to the result. -/
structure BenchResult where
  controls : List NControl
  warnings : List String
deriving DecidableEq, Repr

/-- The ambient effects of one scan run: the engine oracle and the clock. -/
structure ScanEnv where
  runBenchmark : String → Credential → Except String BenchResult
  elapsedAt : Nat → Nat

/-- The fixed scan budget: 30 minutes in milliseconds. -/
def MAX_SCAN_DURATION_MS : Nat := 30 * 60 * 1000

/-- Status update on the compliance_checks rows with the given id. -/
def updChecks (cs : List Check) (id : String) (st : ScanStatus) : List Check :=
  cs.map (fun c => if c.id == id then { c with status := st } else c)

/-- The UPDATE setting a scan status (used by every failure path). -/
def setCheckStatus (db : DB) (id : String) (st : ScanStatus) : DB :=
  { db with checks := updChecks db.checks id st }

/-- Whether a compliance_checks row with the id exists. -/
def hasCheck (db : DB) (id : String) : Bool :=
  db.checks.any (fun c => c.id == id)

/-- The stored row of a scan, if any. -/
def checkRow (db : DB) (id : String) : Option Check :=
  db.checks.find? (fun c => c.id == id)

/-- The stored status of a scan, if the row exists. -/
def scanStatus (db : DB) (id : String) : Option ScanStatus :=
  (checkRow db id).map Check.status

/-- Metadata lookup by (client, control id), the first matching row. -/
def lookupMetadata (db : DB) (clientId controlId : String) : Option MetadataRow :=
  (db.control_metadata.filter
    (fun m => m.client_id == clientId && m.control_id == controlId)).head?

/-- Whether a finding is archived by a scan over the given client and
framework set. -/
def archivedMatch (clientId : String) (fws : List String) (f : Finding) : Bool :=
  f.client_id == clientId && fws.contains f.framework

/-- Snapshot of a finding into findings_history, tagged with the archiving
scan id. -/
def toHistoryRow (scanId : String) (f : Finding) : HistoryRow :=
  { snapshot := f, archived_by_scan_id := scanId }

/-- The History Archiver: copy every live finding of the client whose
framework is in the set into findings_history tagged with the new scan id,
then delete those findings from the live table. -/
def archiveFindings (db : DB) (scanId clientId : String) (fws : List String) : DB :=
  { db with
    findings_history := db.findings_history
      ++ (db.findings.filter (archivedMatch clientId fws)).map (toHistoryRow scanId)
    findings := db.findings.filter (fun f => !(archivedMatch clientId fws f)) }

/-- Helper extracting the domain from a control id (the heuristic in
extractDomainFromControl). -/
def extractDomainFromControl (controlId : String) : Option String :=
  if strContains controlId "access" || strContains controlId "312" then
    some "Access Control"
  else if strContains controlId "encrypt" || strContains controlId "164.312" then
    some "Encryption"
  else if strContains controlId "audit" || strContains controlId "log" then
    some "Audit & Logging"
  else if strContains controlId "backup" || strContains controlId "recovery" then
    some "Backup & Recovery"
  else none

/-- Default remediation status when no persisted status applies: open for
fail, resolved for pass, open otherwise. -/
def defaultRemediation (st : Status) : String :=
  match st with
  | .fail => "open"
  | .pass => "resolved"
  | _ => "open"

/-- The Metadata Merger rule for remediation status: a persisted truthy
status is carried forward unless the fresh status is pass, which forces
resolved; otherwise the default applies. -/
def mergedRemediation (metadata : Option MetadataRow) (st : Status) : String :=
  match metadata with
  | some m =>
      if jsTruthy m.remediation_status then
        if st = .pass then "resolved" else m.remediation_status.getD ""
      else defaultRemediation st
  | none => defaultRemediation st

/-- Construction of the findings row inserted for one normalized control,
with the persisted metadata merged in. -/
def mkFinding (clientId checkId framework : String)
    (metadata : Option MetadataRow) (c : NControl) : Finding :=
  { client_id := clientId
    compliance_check_id := checkId
    control_id := c.control_id
    control_title := c.title
    control_description := jsOrNull (some c.description)
    framework := framework
    domain := extractDomainFromControl c.control_id
    category := none
    scan_status := c.status
    scan_reason := jsOrNull c.reason
    scan_resources := c.resources
    remediation_status := mergedRemediation metadata c.status
    assigned_owner_id := jsOrNull (metadata.bind MetadataRow.assigned_owner_id)
    notes := jsOrNull (metadata.bind MetadataRow.notes)
    status_history := (metadata.bind MetadataRow.status_history).getD "[]"
    ai_business_context := jsOrNull (metadata.bind MetadataRow.ai_business_context)
    ai_remediation_guidance :=
      jsOrNull (metadata.bind MetadataRow.ai_remediation_guidance) }

/-- Appending one findings row (the INSERT INTO findings). -/
def insertFinding (db : DB) (f : Finding) : DB :=
  { db with findings := db.findings ++ [f] }

/-- The per-control loop body of executeScan: look up metadata and insert
the merged finding, for each control in order. -/
def processControls (clientId checkId framework : String) :
    List NControl → DB → DB
  | [], db => db
  | c :: rest, db =>
    processControls clientId checkId framework rest
      (insertFinding db
        (mkFinding clientId checkId framework
          (lookupMetadata db clientId c.control_id) c))

/-- Count of controls with a given status in a benchmark result. -/
def countStatus (cs : List NControl) (st : Status) : Nat :=
  (cs.filter (fun c => c.status == st)).length

/-- The running accumulator of one executeScan run: the evolving store, the
clock-read counter, the aggregate counters, the accumulated warnings, the
attempt counters and, for specification purposes, the trace of benchmark
names attempted. -/
structure ScanAcc where
  db : DB
  k : Nat
  totalControls : Nat
  passedControls : Nat
  failedControls : Nat
  errorControls : Nat
  skipControls : Nat
  verificationWarnings : List String
  benchmarksRun : Nat
  benchmarksFailed : Nat
  benchmarkErrors : List String
  attempted : List String

/-- How a loop ended: by the timeout checkpoint or by exhausting its list. -/
inductive LoopExit where
  | timedOut
  | finished
deriving DecidableEq, Repr

/-- Processing of one (credential, framework) pair: skip when no benchmark
mapping exists; otherwise count the attempt and either record the engine
error or insert the findings and accumulate the aggregates and warnings. -/
def processPair (env : ScanEnv) (checkId clientId : String)
    (cred : Credential) (framework : String) (acc : ScanAcc) : ScanAcc :=
  match getBenchmarkName framework cred.provider with
  | none => acc
  | some bench =>
    match env.runBenchmark bench cred with
    | .error e =>
        { acc with
          benchmarksRun := acc.benchmarksRun + 1
          attempted := acc.attempted ++ [bench]
          benchmarksFailed := acc.benchmarksFailed + 1
          benchmarkErrors := acc.benchmarkErrors ++ [bench ++ ": " ++ e] }
    | .ok result =>
        { acc with
          benchmarksRun := acc.benchmarksRun + 1
          attempted := acc.attempted ++ [bench]
          db := processControls clientId checkId framework result.controls acc.db
          totalControls := acc.totalControls + result.controls.length
          passedControls := acc.passedControls + countStatus result.controls .pass
          failedControls := acc.failedControls + countStatus result.controls .fail
          errorControls := acc.errorControls + countStatus result.controls .error
          skipControls := acc.skipControls + countStatus result.controls .skip
          verificationWarnings := acc.verificationWarnings
            ++ result.warnings.map (fun w => bench ++ ": " ++ w) }

/-- The inner framework loop: a timeout checkpoint before each pair, then
the pair is processed. On breach the scan is marked failed and the loop
exits at once. -/
def fwLoop (env : ScanEnv) (checkId clientId : String) (cred : Credential) :
    List String → ScanAcc → ScanAcc × LoopExit
  | [], acc => (acc, .finished)
  | fw :: rest, acc =>
    let e := env.elapsedAt acc.k
    let acc1 := { acc with k := acc.k + 1 }
    if e > MAX_SCAN_DURATION_MS then
      ({ acc1 with db := setCheckStatus acc1.db checkId .failed }, .timedOut)
    else
      fwLoop env checkId clientId cred rest
        (processPair env checkId clientId cred fw acc1)

/-- The outer credential loop: a timeout checkpoint before each credential,
then the framework loop; a timeout anywhere aborts the whole fan-out. -/
def credLoop (env : ScanEnv) (checkId clientId : String) (fws : List String) :
    List Credential → ScanAcc → ScanAcc × LoopExit
  | [], acc => (acc, .finished)
  | cred :: rest, acc =>
    let e := env.elapsedAt acc.k
    let acc1 := { acc with k := acc.k + 1 }
    if e > MAX_SCAN_DURATION_MS then
      ({ acc1 with db := setCheckStatus acc1.db checkId .failed }, .timedOut)
    else
      match fwLoop env checkId clientId cred fws acc1 with
      | (acc2, .timedOut) => (acc2, .timedOut)
      | (acc2, .finished) => credLoop env checkId clientId fws rest acc2

/-- The terminal UPDATE of a successful run: status completed, the
aggregate counters and the accumulated verification warnings. -/
def completeCheck (db : DB) (id : String) (acc : ScanAcc) : DB :=
  { db with
    checks := db.checks.map (fun c =>
      if c.id == id then
        { c with
          status := .completed
          total_controls := acc.totalControls
          passed_controls := acc.passedControls
          failed_controls := acc.failedControls
          error_controls := acc.errorControls
          skip_controls := acc.skipControls
          verification_warnings := acc.verificationWarnings }
      else c) }

/-- The initial accumulator of a run, over the archived store. -/
def initAcc (db : DB) : ScanAcc :=
  { db := db, k := 1, totalControls := 0, passedControls := 0
    failedControls := 0, errorControls := 0, skipControls := 0
    verificationWarnings := [], benchmarksRun := 0, benchmarksFailed := 0
    benchmarkErrors := [], attempted := [] }

/-- The outcome decision after the fan-out finished: failed when every
attempted benchmark failed, failed when none ran, completed with the
aggregates and warnings otherwise. -/
def finishOutcome (checkId : String) (acc : ScanAcc) : DB :=
  if acc.benchmarksRun > 0 && acc.benchmarksFailed == acc.benchmarksRun then
    setCheckStatus acc.db checkId .failed
  else if acc.benchmarksRun == 0 then
    setCheckStatus acc.db checkId .failed
  else
    completeCheck acc.db checkId acc

/-- The background executeScan run: the pre-run timeout checkpoint, the
archive step, the credential-framework fan-out with per-checkpoint timeout
enforcement, and the final outcome decision (failed on timeout, failed
when every attempted benchmark failed or none ran, completed with
aggregates and warnings otherwise). -/
def executeScan (env : ScanEnv) (checkId clientId : String)
    (fws : List String) (creds : List Credential) (db : DB) : DB :=
  if hasCheck db checkId && decide (env.elapsedAt 0 > MAX_SCAN_DURATION_MS) then
    setCheckStatus db checkId .failed
  else
    let db1 := archiveFindings db checkId clientId fws
    match credLoop env checkId clientId fws creds (initAcc db1) with
    | (acc, .timedOut) => acc.db
    | (acc, .finished) => finishOutcome checkId acc

/-- Outcome of the POST scans handler. -/
inductive PostScanResult where
  | clientNotFound
  | noFrameworks
  | noCredentials
  | created (scanId : String)
deriving DecidableEq, Repr

/-- A freshly created compliance_checks row. -/
def newCheck (id clientId : String) (fws : List String) : Check :=
  { id := id, client_id := clientId, frameworks := fws
    status := .in_progress, total_controls := 0, passed_controls := 0
    failed_controls := 0, error_controls := 0, skip_controls := 0
    verification_warnings := [] }

/-- The POST scans handler up to its response: resolve the client, the
framework list and the active credentials, then insert the scan row in
in_progress and return 201. The background run happens afterwards. -/
def postScans (db : DB) (clientId : String)
    (reqFrameworks : Option (List String)) (newId : String) :
    PostScanResult × DB :=
  match db.clients.find? (fun c => c.id == clientId) with
  | none => (.clientNotFound, db)
  | some client =>
    let fws := match reqFrameworks with
      | some l => l
      | none => client.assigned_frameworks
    if fws.isEmpty then (.noFrameworks, db)
    else
      let creds := db.credentials.filter
        (fun c => c.client_id == clientId && c.is_active)
      if creds.isEmpty then (.noCredentials, db)
      else
        (.created newId, { db with checks := db.checks ++ [newCheck newId clientId fws] })

/-- The timed-out-scan marking performed by the list and detail endpoints:
only a scan still in in_progress whose elapsed time exceeds the budget is
marked failed. -/
def markTimedOutScan (elapsed : Nat) (c : Check) : Check :=
  if c.status == .in_progress && decide (elapsed > MAX_SCAN_DURATION_MS) then
    { c with status := .failed }
  else c

/-! ## Specification-side definitions

These definitions restate behavior in direct form, to be compared with the
embedded code: the depth-first occurrence list of a raw tree and the
occurrence the dedup keeps, and the list of attempted (benchmark, outcome)
pairs of a scan with its aggregates. -/

mutual

/-- The depth-first list of raw control occurrences of one tree node. -/
def occsItem : RawItem → List RawControl
  | .node cs gs => cs ++ occsGroups gs

/-- The depth-first occurrence list of a list of groups. -/
def occsGroups : List RawItem → List RawControl
  | [] => []
  | g :: gs => occsItem g ++ occsGroups gs

end

/-- Last element of a list satisfying a predicate, if any. -/
def lastWith {α : Type} (p : α → Bool) : List α → Option α
  | [] => none
  | a :: l =>
    match lastWith p l with
    | some b => some b
    | none => if p a then some a else none

/-- The occurrences of one control id, in traversal order. -/
def occsOf (cid : String) (cs : List RawControl) : List RawControl :=
  cs.filter (fun c => c.control_id == cid)

/-- The occurrence the dedup keeps for a control id: the last occurrence
carrying non-empty results if one exists, otherwise the first occurrence. -/
def keptOccurrence (cid : String) (cs : List RawControl) : Option RawControl :=
  match lastWith hasResults (occsOf cid cs) with
  | some c => some c
  | none => (occsOf cid cs).head?

/-- Whether an engine outcome succeeded. -/
def runOk : Except String BenchResult → Bool
  | .ok _ => true
  | .error _ => false

/-- The attempted (benchmark name, outcome) pairs of one credential, in
order: frameworks without a benchmark mapping are skipped. -/
def pairsOf (env : ScanEnv) (cred : Credential) (fws : List String) :
    List (String × Except String BenchResult) :=
  fws.filterMap (fun fw =>
    (getBenchmarkName fw cred.provider).map (fun b => (b, env.runBenchmark b cred)))

/-- All attempted (benchmark name, outcome) pairs of one scan, in order. -/
def pairRuns (env : ScanEnv) (creds : List Credential) (fws : List String) :
    List (String × Except String BenchResult) :=
  creds.flatMap (fun cred => pairsOf env cred fws)

/-- The successful runs among the attempted pairs. -/
def okRuns (rs : List (String × Except String BenchResult)) :
    List (String × BenchResult) :=
  rs.filterMap (fun p =>
    match p.2 with
    | .ok r => some (p.1, r)
    | .error _ => none)

/-- The number of failed runs among the attempted pairs. -/
def errCount (rs : List (String × Except String BenchResult)) : Nat :=
  (rs.filter (fun p => !(runOk p.2))).length

/-- The aggregate control count over the successful runs. -/
def specTotal (rs : List (String × Except String BenchResult)) : Nat :=
  ((okRuns rs).map (fun p => p.2.controls.length)).sum

/-- The aggregate count of one status over the successful runs. -/
def specCount (st : Status) (rs : List (String × Except String BenchResult)) : Nat :=
  ((okRuns rs).map (fun p => countStatus p.2.controls st)).sum

/-- The accumulated, benchmark-prefixed warning list over the successful
runs. -/
def specWarnings (rs : List (String × Except String BenchResult)) : List String :=
  (okRuns rs).flatMap (fun p => p.2.warnings.map (fun w => p.1 ++ ": " ++ w))

/-! ## Lemmas: the control map -/

theorem mapLookup_set_self (m : CMap) (k : String) (v : NControl) :
    mapLookup (mapSet m k v) k = some v := by
  induction m with
  | nil => simp [mapSet, mapLookup, List.find?]
  | cons p t ih =>
    by_cases h : p.1 == k
    · simp [mapSet, h, mapLookup, List.find?]
    · simp only [mapSet, h, if_false, Bool.false_eq_true]
      simpa [mapLookup, List.find?, h] using ih

theorem mapLookup_set_ne (m : CMap) (k k' : String) (v : NControl)
    (h : k ≠ k') : mapLookup (mapSet m k v) k' = mapLookup m k' := by
  induction m with
  | nil =>
    have hne : (k == k') = false := by simpa [beq_iff_eq] using h
    simp [mapSet, mapLookup, List.find?, hne]
  | cons p t ih =>
    by_cases hp : p.1 == k
    · have hpk : p.1 = k := by simpa [beq_iff_eq] using hp
      have hne : (k == k') = false := by simpa [beq_iff_eq] using h
      simp [mapSet, hp, mapLookup, List.find?, hne, hpk]
    · simp only [mapSet, hp, if_false, Bool.false_eq_true]
      by_cases hq : p.1 == k'
      · simp [mapLookup, List.find?, hq]
      · simpa [mapLookup, List.find?, hq] using ih

theorem mapHas_eq_isSome (m : CMap) (k : String) :
    mapHas m k = (mapLookup m k).isSome := by
  induction m with
  | nil => rfl
  | cons p t ih =>
    by_cases hp : p.1 == k
    · simp [mapHas, mapLookup, List.find?, hp]
    · simpa [mapHas, mapLookup, List.find?, hp] using ih

theorem mapLookup_eq_none_of_has_false (m : CMap) (k : String)
    (h : mapHas m k = false) : mapLookup m k = none := by
  have := mapHas_eq_isSome m k
  rw [h] at this
  cases hm : mapLookup m k
  · rfl
  · rw [hm] at this; simp at this

theorem keys_mapSet_mem (m : CMap) (k x : String) (v : NControl)
    (hx : x ∈ (mapSet m k v).map Prod.fst) :
    x ∈ m.map Prod.fst ∨ x = k := by
  induction m with
  | nil => simpa [mapSet] using hx
  | cons p t ih =>
    by_cases hp : p.1 == k
    · simp only [mapSet, hp, if_true, List.map_cons, List.mem_cons] at hx
      rcases hx with h | h
      · right; exact h
      · left
        simp only [List.map_cons, List.mem_cons]
        right; exact h
    · simp only [mapSet, hp, Bool.false_eq_true, if_false, List.map_cons,
        List.mem_cons] at hx
      rcases hx with h | h
      · left
        simp only [List.map_cons, List.mem_cons]
        left; exact h
      · rcases ih h with h2 | h2
        · left
          simp only [List.map_cons, List.mem_cons]
          right; exact h2
        · right; exact h2

theorem nodup_keys_mapSet (m : CMap) (k : String) (v : NControl)
    (h : (m.map Prod.fst).Nodup) : ((mapSet m k v).map Prod.fst).Nodup := by
  induction m with
  | nil => simp [mapSet]
  | cons p t ih =>
    simp only [List.map_cons, List.nodup_cons] at h
    by_cases hp : p.1 == k
    · have hpk : p.1 = k := by simpa [beq_iff_eq] using hp
      simp only [mapSet, hp, if_true, List.map_cons, List.nodup_cons]
      exact ⟨by rw [← hpk]; exact h.1, h.2⟩
    · have hpk : p.1 ≠ k := by simpa [beq_iff_eq] using hp
      simp only [mapSet, hp, if_false, Bool.false_eq_true]
      simp only [List.map_cons, List.nodup_cons]
      refine ⟨?_, ih h.2⟩
      intro hmem
      rcases keys_mapSet_mem t k p.1 v hmem with h2 | h2
      · exact h.1 h2
      · exact hpk h2

theorem nodup_keys_processControl (m : CMap) (c : RawControl)
    (h : (m.map Prod.fst).Nodup) :
    ((processControl m c).map Prod.fst).Nodup := by
  unfold processControl
  split
  · exact h
  · split
    · exact nodup_keys_mapSet m _ _ h
    · exact h

theorem nodup_keys_foldl (cs : List RawControl) :
    ∀ m : CMap, (m.map Prod.fst).Nodup →
      ((cs.foldl processControl m).map Prod.fst).Nodup := by
  induction cs with
  | nil => intro m h; exact h
  | cons c rest ih =>
    intro m h
    rw [List.foldl_cons]
    exact ih _ (nodup_keys_processControl m c h)

theorem mapLookup_processControl_ne (m : CMap) (c : RawControl)
    (cid : String) (h : c.control_id ≠ cid) :
    mapLookup (processControl m c) cid = mapLookup m cid := by
  unfold processControl
  split
  · rfl
  · split
    · exact mapLookup_set_ne m _ cid _ h
    · rfl

/-! ## Lemmas: the extraction equals the fold over the occurrence list -/

mutual

theorem extractItem_eq_fold :
    ∀ (m : CMap) (it : RawItem),
      extractItem m it = (occsItem it).foldl processControl m
  | m, .node cs gs => by
      rw [extractItem, occsItem, List.foldl_append]
      exact extractGroups_eq_fold _ gs

theorem extractGroups_eq_fold :
    ∀ (m : CMap) (gs : List RawItem),
      extractGroups m gs = (occsGroups gs).foldl processControl m
  | m, [] => by rw [extractGroups, occsGroups]; rfl
  | m, g :: gs => by
      rw [extractGroups, occsGroups, List.foldl_append,
        extractItem_eq_fold m g]
      exact extractGroups_eq_fold _ gs

end

/-- Characterization of the fold: per control id, the kept record is the
transform of the last occurrence carrying results if one exists, falling
back to the value already in the map and then to the first occurrence. -/
theorem foldl_processControl_lookup (cid : String) (hcid : cid ≠ "") :
    ∀ (cs : List RawControl) (m : CMap),
      mapLookup (cs.foldl processControl m) cid =
        match lastWith hasResults (occsOf cid cs) with
        | some c => some (transformControl c)
        | none =>
          match mapLookup m cid with
          | some v => some v
          | none => (occsOf cid cs).head?.map transformControl := by
  intro cs
  induction cs with
  | nil =>
    intro m
    cases h : mapLookup m cid <;> simp [occsOf, lastWith, h]
  | cons c rest ih =>
    intro m
    rw [List.foldl_cons]
    by_cases hc : c.control_id = cid
    · have hocc : occsOf cid (c :: rest) = c :: occsOf cid rest := by
        simp [occsOf, List.filter_cons, hc]
      have hcne : ¬(c.control_id = "") := by rw [hc]; exact hcid
      by_cases hr : hasResults c = true
      · have hpc : processControl m c = mapSet m cid (transformControl c) := by
          unfold processControl
          rw [if_neg hcne, if_pos (by simp [hr]), hc]
        rw [hpc, ih]
        rw [hocc]
        rcases hlw : lastWith hasResults (occsOf cid rest) with _ | b
        · simp [lastWith, hlw, hr, mapLookup_set_self]
        · simp [lastWith, hlw]
      · have hrf : hasResults c = false := by simpa using hr
        by_cases hm : mapHas m c.control_id = true
        · have hpc : processControl m c = m := by
            unfold processControl
            rw [if_neg hcne, if_neg (by simp [hm, hrf])]
          obtain ⟨v, hv⟩ : ∃ v, mapLookup m cid = some v := by
            have := mapHas_eq_isSome m cid
            rw [hc] at hm
            rw [hm] at this
            cases hlk : mapLookup m cid
            · rw [hlk] at this; simp at this
            · exact ⟨_, rfl⟩
          rw [hpc, ih, hocc]
          rcases hlw : lastWith hasResults (occsOf cid rest) with _ | b
          · simp [lastWith, hlw, hrf, hv]
          · simp [lastWith, hlw]
        · have hmf : mapHas m c.control_id = false := by simpa using hm
          have hpc : processControl m c = mapSet m cid (transformControl c) := by
            unfold processControl
            rw [if_neg hcne, if_pos (by simp [hmf]), hc]
          have hnone : mapLookup m cid = none := by
            rw [hc] at hmf
            exact mapLookup_eq_none_of_has_false m cid hmf
          rw [hpc, ih, hocc]
          rcases hlw : lastWith hasResults (occsOf cid rest) with _ | b
          · simp [lastWith, hlw, hrf, hnone, mapLookup_set_self]
          · simp [lastWith, hlw]
    · have hocc : occsOf cid (c :: rest) = occsOf cid rest := by
        simp [occsOf, List.filter_cons, hc]
      rw [ih, hocc, mapLookup_processControl_ne m c cid hc]

/-! ## Claim C1 -/

/-- First occurrence of the duplicated control id, with non-empty results. -/
def c1occA : RawControl :=
  { control_id := "c1", title := "t1", description := "", summary := none
  , results := some [{ reason := some "r1" }], run_error := none }

/-- Second occurrence of the duplicated control id, also with non-empty
results but a different title. -/
def c1occB : RawControl :=
  { control_id := "c1", title := "t2", description := "", summary := none
  , results := some [{ reason := some "r2" }], run_error := none }

/-- A raw tree in which the same control id appears under two groups. -/
def c1root : RawItem :=
  .node [] [.node [c1occA] [], .node [c1occB] []]

/-- C1 counterexample: the claim states that when several occurrences of a
control id all carry non-empty results, the first such occurrence is kept.
On this input both occurrences carry non-empty results, yet the single
emitted record is the transform of the SECOND occurrence (title t2), not
the first (title t1): an occurrence with non-empty results overwrites an
already-kept occurrence that also had non-empty results. -/
theorem c1_counterexample :
    hasResults c1occA = true ∧ hasResults c1occB = true ∧
    allControls c1root = [transformControl c1occB] ∧
    (transformControl c1occB).title = "t2" ∧
    (transformControl c1occA).title = "t1" ∧
    transformControl c1occB ≠ transformControl c1occA := by
  refine ⟨rfl, rfl, by decide, rfl, rfl, by decide⟩

/-- C1 amended: the Normalizer emits exactly one record per control id
(the key list of the result map has no duplicates), and the record kept
for an id is the transform of the LAST occurrence in depth-first order
that carries a non-empty results array if one exists, and otherwise of the
first occurrence seen. -/
theorem c1_dedup_amended (root : RawItem) (cid : String) (h : cid ≠ "") :
    ((extractControls root).map Prod.fst).Nodup ∧
    mapLookup (extractControls root) cid
      = (keptOccurrence cid (occsItem root)).map transformControl := by
  constructor
  · rw [extractControls, extractItem_eq_fold]
    exact nodup_keys_foldl (occsItem root) [] (by simp)
  · rw [extractControls, extractItem_eq_fold,
      foldl_processControl_lookup cid h]
    rcases hlw : lastWith hasResults (occsOf cid (occsItem root)) with _ | c
    · simp [keptOccurrence, hlw, mapLookup, List.find?]
    · simp [keptOccurrence, hlw]

/-- C1 amended witness: the amended statement evaluated on the concrete
duplicated-id input. -/
theorem c1_amended_witness :
    ("c1" : String) ≠ "" ∧
    (((extractControls c1root).map Prod.fst).Nodup ∧
      mapLookup (extractControls c1root) "c1"
        = (keptOccurrence "c1" (occsItem c1root)).map transformControl) :=
  ⟨by decide, c1_dedup_amended c1root "c1" (by decide)⟩

/-! ## Claim C6 -/

/-- C6: a normalized control derives status fail when the engine-reported
alarm count is positive; otherwise error when the error count is positive;
otherwise pass when the ok count is positive; otherwise skip, including
when no summary is present. In particular a control with both passing and
failing sub-resources derives to fail. -/
theorem c6_status_derivation (c : RawControl) :
    (∀ sm : RawSummary, c.summary = some sm →
      (0 < sm.alarm → (transformControl c).status = .fail) ∧
      (sm.alarm = 0 → 0 < sm.error → (transformControl c).status = .error) ∧
      (sm.alarm = 0 → sm.error = 0 → 0 < sm.ok →
        (transformControl c).status = .pass) ∧
      (sm.alarm = 0 → sm.error = 0 → sm.ok = 0 →
        (transformControl c).status = .skip)) ∧
    (c.summary = none → (transformControl c).status = .skip) := by
  constructor
  · intro sm hsm
    refine ⟨?_, ?_, ?_, ?_⟩ <;> intros <;>
      simp_all [transformControl, deriveStatus]
  · intro h
    simp [transformControl, deriveStatus, h]

/-- A control with one failing and three passing sub-resources. -/
def c6ex : RawControl :=
  { control_id := "c", title := "", description := ""
  , summary := some { alarm := 1, ok := 3, error := 0 }
  , results := none, run_error := none }

/-- C6 witness: the mixed alarm/ok control derives to fail. -/
theorem c6_witness :
    c6ex.summary = some { alarm := 1, ok := 3, error := 0 } ∧
    (transformControl c6ex).status = Status.fail :=
  ⟨rfl, ((c6_status_derivation c6ex).1
    { alarm := 1, ok := 3, error := 0 } rfl).1 (by decide)⟩

/-! ## Claim C7 -/

/-- C7: the permission flag of a normalized control is exactly the match
of the lower-cased reason/error text against the fixed access-denial
vocabulary, and when it is set the error type is chosen in priority order
AccessDenied, then UnauthorizedOperation, then Forbidden, then the generic
PermissionError. -/
theorem c7_permission_classification (c : RawControl) :
    ((transformControl c).permission_error
      = permissionErrorKeywords.any (fun k => strContains (errorTextOf c) k)) ∧
    ((transformControl c).permission_error = true →
      (transformControl c).error_type = some
        (if strContains (errorTextOf c) "accessdenied"
            || strContains (errorTextOf c) "access denied" then "AccessDenied"
         else if strContains (errorTextOf c) "unauthorized" then
           "UnauthorizedOperation"
         else if strContains (errorTextOf c) "forbidden" then "Forbidden"
         else "PermissionError")) := by
  refine ⟨rfl, ?_⟩
  intro h
  have hp : isPermissionError c = true := h
  simp only [transformControl, errorTypeOf, hp, if_true]
  split_ifs <;> rfl

/-- A control whose reason text contains the claim's example phrase. -/
def c7ex : RawControl :=
  { control_id := "c", title := "", description := "", summary := none
  , results := some [{ reason := some "AccessDenied: user is not authorized" }]
  , run_error := none }

/-- C7 witness: the example reason text sets the permission flag and the
AccessDenied error type. -/
theorem c7_witness :
    (transformControl c7ex).permission_error = true ∧
    (transformControl c7ex).error_type = some "AccessDenied" := by
  refine ⟨by decide, ?_⟩
  rw [(c7_permission_classification c7ex).2 (by decide)]
  decide

/-! ## Claim C8 -/

theorem lookup_val_mem {α β : Type} [BEq α] (l : List (α × β)) (k : α) (v : β)
    (h : l.lookup k = some v) : v ∈ l.map Prod.snd := by
  induction l with
  | nil => simp [List.lookup] at h
  | cons p t ih =>
    rcases p with ⟨a, b⟩
    by_cases hk : k == a
    · simp only [List.lookup, hk, Option.some.injEq] at h
      simp [← h]
    · simp only [List.lookup, hk] at h
      simp only [List.map_cons, List.mem_cons]
      right
      exact ih h

theorem rangeLookup_bounds (p f : String) (mn mx : Nat)
    (h : rangeLookup p f = some (mn, mx)) : 1 ≤ mn ∧ mn ≤ mx := by
  rw [rangeLookup] at h
  rcases Option.bind_eq_some.mp h with ⟨pm, h1, h2⟩
  have hpm := lookup_val_mem _ _ _ h1
  have hv := lookup_val_mem _ _ _ h2
  simp [expectedControlRanges] at hpm
  rcases hpm with h3 | h3 | h3 <;> subst h3 <;>
    (simp [awsRanges, azureRanges, gcpRanges] at hv; omega)

/-- C8: for a (provider, framework) pair with a table entry, the verdict is
invalid exactly when the total is below 80 percent of the range minimum
(the integer comparison 5T < 4min is the exact JavaScript float comparison
T < min * 0.8 for every table entry), with the strong warning emitted
there; totals between 80 percent of the minimum and the minimum keep the
verdict valid with a mild warning; totals above 120 percent of the
maximum keep the verdict valid with a warning; without a table entry the
verdict is valid and no count-based warning is emitted. -/
theorem c8_coverage_thresholds (p f : String) (mn mx T pe ec : Nat) :
    (rangeLookup p f = some (mn, mx) →
      ((verifyCoverage (some p) (some f) T pe ec).control_count_valid = false
          ↔ 5 * T < 4 * mn) ∧
      (5 * T < 4 * mn →
        CoverageWarning.countSignificantlyBelow T mn mx
          ∈ (verifyCoverage (some p) (some f) T pe ec).warnings) ∧
      (4 * mn ≤ 5 * T → T < mn →
        (verifyCoverage (some p) (some f) T pe ec).control_count_valid = true ∧
        CoverageWarning.countSlightlyBelow T mn
          ∈ (verifyCoverage (some p) (some f) T pe ec).warnings) ∧
      (5 * T > 6 * mx →
        (verifyCoverage (some p) (some f) T pe ec).control_count_valid = true ∧
        CoverageWarning.countAboveMax T mx
          ∈ (verifyCoverage (some p) (some f) T pe ec).warnings)) ∧
    (rangeLookup p f = none →
      (verifyCoverage (some p) (some f) T pe ec).control_count_valid = true ∧
      ∀ w ∈ (verifyCoverage (some p) (some f) T pe ec).warnings,
        w = CoverageWarning.permissionIssues pe ∨
        w = CoverageWarning.highErrorRate ec T) := by
  constructor
  · intro h
    have hb := rangeLookup_bounds p f mn mx h
    refine ⟨?_, ?_, ?_, ?_⟩
    · by_cases h1 : 5 * T < 4 * mn
      · simp [verifyCoverage, h, countVerification, h1]
      · by_cases h2 : T < mn
        · simp [verifyCoverage, h, countVerification, h1, h2]
        · by_cases h3 : 5 * T > 6 * mx
          · simp [verifyCoverage, h, countVerification, h1, h2, h3]
          · simp [verifyCoverage, h, countVerification, h1, h2, h3]
    · intro h1
      simp [verifyCoverage, h, countVerification, h1]
    · intro h1 h2
      have h1n : ¬ (5 * T < 4 * mn) := by omega
      simp [verifyCoverage, h, countVerification, h1n, h2]
    · intro h3
      have h1n : ¬ (5 * T < 4 * mn) := by omega
      have h2n : ¬ (T < mn) := by omega
      simp [verifyCoverage, h, countVerification, h1n, h2n, h3]
  · intro h
    constructor
    · simp [verifyCoverage, h, countVerification]
    · intro w hw
      by_cases hpe : pe > 0 <;> by_cases hec : 5 * ec > T <;>
        simp [verifyCoverage, h, countVerification, hpe, hec] at hw <;>
        tauto

/-- C8 witness: for the aws HIPAA entry (range 130 to 350), a total of 100
is below 80 percent of the minimum, making the verdict invalid with the
strong warning. -/
theorem c8_witness :
    rangeLookup "aws" "HIPAA" = some (130, 350) ∧
    (verifyCoverage (some "aws") (some "HIPAA") 100 0 0).control_count_valid
      = false ∧
    CoverageWarning.countSignificantlyBelow 100 130 350
      ∈ (verifyCoverage (some "aws") (some "HIPAA") 100 0 0).warnings := by
  have h := (c8_coverage_thresholds "aws" "HIPAA" 130 350 100 0 0).1 (by decide)
  exact ⟨by decide, h.1.mpr (by decide), h.2.1 (by decide)⟩

/-! ## Claim C2 -/

theorem jsOrNull_of_ne (a : Option String) (h : a ≠ some "") :
    jsOrNull a = a := by
  cases a with
  | none => rfl
  | some v =>
    have hv : v ≠ "" := fun he => h (by rw [he])
    simp [jsOrNull, jsTruthy, hv]

/-- C2: for a freshly normalized control written as a finding, when a
metadata row with a (non-empty) remediation status exists for the
(tenant, control id) pair, the finding carries forward the row's owner,
notes, status history and AI content, and its remediation status is
resolved when the fresh scan status is pass and the persisted status
otherwise; when no row exists, the remediation status defaults to
resolved for pass and open for fail, error and skip. Database string
fields are never the empty string, stated here as hypotheses because a
JavaScript falsy empty string would collapse to null. -/
theorem c2_metadata_merge (db : DB) (clientId checkId fw : String)
    (c : NControl) :
    (∀ (m : MetadataRow) (s hist : String),
      lookupMetadata db clientId c.control_id = some m →
      m.remediation_status = some s → s ≠ "" →
      m.status_history = some hist →
      m.assigned_owner_id ≠ some "" → m.notes ≠ some "" →
      m.ai_business_context ≠ some "" → m.ai_remediation_guidance ≠ some "" →
      ((mkFinding clientId checkId fw
          (lookupMetadata db clientId c.control_id) c).assigned_owner_id
          = m.assigned_owner_id ∧
       (mkFinding clientId checkId fw
          (lookupMetadata db clientId c.control_id) c).notes = m.notes ∧
       (mkFinding clientId checkId fw
          (lookupMetadata db clientId c.control_id) c).status_history = hist ∧
       (mkFinding clientId checkId fw
          (lookupMetadata db clientId c.control_id) c).ai_business_context
          = m.ai_business_context ∧
       (mkFinding clientId checkId fw
          (lookupMetadata db clientId c.control_id) c).ai_remediation_guidance
          = m.ai_remediation_guidance ∧
       (mkFinding clientId checkId fw
          (lookupMetadata db clientId c.control_id) c).remediation_status
          = if c.status = .pass then "resolved" else s)) ∧
    (lookupMetadata db clientId c.control_id = none →
      (mkFinding clientId checkId fw
        (lookupMetadata db clientId c.control_id) c).remediation_status
        = if c.status = .pass then "resolved" else "open") := by
  constructor
  · intro m s hist hm hrs hs hh how hn hab har
    rw [hm]
    have hts : jsTruthy m.remediation_status = true := by
      rw [hrs]; simpa [jsTruthy] using hs
    refine ⟨?_, ?_, ?_, ?_, ?_, ?_⟩
    · simpa [mkFinding, Option.bind] using jsOrNull_of_ne _ how
    · simpa [mkFinding, Option.bind] using jsOrNull_of_ne _ hn
    · simp [mkFinding, Option.bind, hh]
    · simpa [mkFinding, Option.bind] using jsOrNull_of_ne _ hab
    · simpa [mkFinding, Option.bind] using jsOrNull_of_ne _ har
    · have hts2 : jsTruthy (some s) = true := by simpa [jsTruthy] using hs
      simp [mkFinding, mergedRemediation, hrs, hts2]
  · intro h
    rw [h]
    simp only [mkFinding, mergedRemediation, defaultRemediation]
    cases hst : c.status <;> simp [hst]

/-- A persisted metadata row matching the spec example: notes and an
in-progress remediation. -/
def c2row : MetadataRow :=
  { client_id := "t", control_id := "ctl"
  , remediation_status := some "in_progress"
  , assigned_owner_id := some "owner-1"
  , notes := some "follow up with infra team"
  , status_history := some "[]"
  , ai_business_context := some "ctx"
  , ai_remediation_guidance := some "fix" }

/-- A store holding only that metadata row. -/
def c2db : DB :=
  { clients := [], credentials := [], checks := [], findings := []
  , findings_history := [], control_metadata := [c2row] }

/-- A fresh failing control with the same control id. -/
def c2ctl : NControl :=
  { control_id := "ctl", title := "T", description := "", status := .fail
  , reason := none, resources := none, permission_error := false
  , error_type := none }

/-- C2 witness: the persisted notes and in-progress status survive onto
the fresh failing finding. -/
theorem c2_witness :
    lookupMetadata c2db "t" "ctl" = some c2row ∧
    ((mkFinding "t" "s1" "HIPAA"
        (lookupMetadata c2db "t" c2ctl.control_id) c2ctl).notes
        = some "follow up with infra team" ∧
     (mkFinding "t" "s1" "HIPAA"
        (lookupMetadata c2db "t" c2ctl.control_id) c2ctl).remediation_status
        = "in_progress") := by
  have h := (c2_metadata_merge c2db "t" "s1" "HIPAA" c2ctl).1 c2row
    "in_progress" "[]" (by decide) (by decide) (by decide) (by decide)
    (by decide) (by decide) (by decide) (by decide)
  exact ⟨by decide, by rw [h.2.1]; decide, by rw [h.2.2.2.2.2]; decide⟩

/-! ## Lemmas: the orchestrator store operations -/

theorem processControls_eq (cl ck fw : String) :
    ∀ (cs : List NControl) (db : DB),
      processControls cl ck fw cs db
        = { db with findings := db.findings
            ++ cs.map (fun c =>
                 mkFinding cl ck fw (lookupMetadata db cl c.control_id) c) } := by
  intro cs
  induction cs with
  | nil => intro db; simp [processControls]
  | cons c rest ih =>
    intro db
    rw [processControls, ih]
    simp [insertFinding]
    intro a _
    rfl

theorem find?_map_update (cs : List Check) (id : String) (F : Check → Check)
    (hF : ∀ c, (F c).id = c.id) :
    (cs.map (fun c => if c.id == id then F c else c)).find?
        (fun c => c.id == id)
      = (cs.find? (fun c => c.id == id)).map F := by
  induction cs with
  | nil => rfl
  | cons c t ih =>
    by_cases hc : (c.id == id) = true
    · have h1 : ((F c).id == id) = true := by rw [hF]; exact hc
      simp only [List.map_cons, hc, if_true, List.find?, h1]
      rfl
    · have hc2 : (c.id == id) = false := by simpa using hc
      simp only [List.map_cons, hc2, Bool.false_eq_true, if_false,
        List.find?, ih]

theorem hasCheck_iff (db : DB) (id : String) :
    hasCheck db id = true ↔ ∃ c, checkRow db id = some c := by
  unfold hasCheck checkRow
  rw [List.any_eq_true]
  constructor
  · rintro ⟨c, hc, hp⟩
    have : (db.checks.find? (fun c => c.id == id)).isSome := by
      rw [List.find?_isSome]
      exact ⟨c, hc, hp⟩
    rcases Option.isSome_iff_exists.mp this with ⟨c2, hc2⟩
    exact ⟨c2, hc2⟩
  · rintro ⟨c, hc⟩
    have hm := List.find?_some hc
    exact ⟨c, List.mem_of_find?_eq_some hc, hm⟩

theorem checkRow_setCheckStatus (db : DB) (id : String) (st : ScanStatus) :
    checkRow (setCheckStatus db id st) id
      = (checkRow db id).map (fun c => { c with status := st }) := by
  unfold checkRow setCheckStatus updChecks
  exact find?_map_update db.checks id _ (fun c => rfl)

theorem scanStatus_setCheckStatus (db : DB) (id : String) (st : ScanStatus)
    (h : hasCheck db id = true) :
    scanStatus (setCheckStatus db id st) id = some st := by
  rcases (hasCheck_iff db id).mp h with ⟨c, hc⟩
  rw [scanStatus, checkRow_setCheckStatus, hc]
  rfl

theorem scanStatus_of_updChecks (db2 db : DB) (id : String) (st : ScanStatus)
    (hc : db2.checks = updChecks db.checks id st)
    (h : hasCheck db id = true) :
    scanStatus db2 id = some st := by
  have heq : scanStatus db2 id = scanStatus (setCheckStatus db id st) id := by
    unfold scanStatus checkRow
    rw [hc]
    rfl
  rw [heq]
  exact scanStatus_setCheckStatus db id st h

theorem checkRow_completeCheck (db : DB) (id : String) (acc : ScanAcc) :
    checkRow (completeCheck db id acc) id
      = (checkRow db id).map (fun c =>
          { c with
            status := .completed
            total_controls := acc.totalControls
            passed_controls := acc.passedControls
            failed_controls := acc.failedControls
            error_controls := acc.errorControls
            skip_controls := acc.skipControls
            verification_warnings := acc.verificationWarnings }) := by
  unfold checkRow completeCheck
  exact find?_map_update db.checks id _ (fun c => rfl)

/-! ## Lemmas: per-pair processing -/

theorem pairsOf_cons (env : ScanEnv) (cred : Credential) (fw : String)
    (rest : List String) :
    pairsOf env cred (fw :: rest)
      = pairsOf env cred [fw] ++ pairsOf env cred rest := by
  unfold pairsOf
  rcases h : getBenchmarkName fw cred.provider with _ | b <;>
    simp [List.filterMap_cons, h]

theorem okRuns_append (l1 l2 : List (String × Except String BenchResult)) :
    okRuns (l1 ++ l2) = okRuns l1 ++ okRuns l2 := by
  simp [okRuns, List.filterMap_append]

theorem errCount_append (l1 l2 : List (String × Except String BenchResult)) :
    errCount (l1 ++ l2) = errCount l1 + errCount l2 := by
  simp [errCount, List.filter_append]

theorem specTotal_append (l1 l2 : List (String × Except String BenchResult)) :
    specTotal (l1 ++ l2) = specTotal l1 + specTotal l2 := by
  simp [specTotal, okRuns_append]

theorem specCount_append (st : Status)
    (l1 l2 : List (String × Except String BenchResult)) :
    specCount st (l1 ++ l2) = specCount st l1 + specCount st l2 := by
  simp [specCount, okRuns_append]

theorem specWarnings_append (l1 l2 : List (String × Except String BenchResult)) :
    specWarnings (l1 ++ l2) = specWarnings l1 ++ specWarnings l2 := by
  simp [specWarnings, okRuns_append]

/-- Behavior of one pair: the store only gains findings rows carrying the
scan id, client and framework of the pair; the clock counter, checks and
history are untouched; the counters and warning list advance by exactly
the aggregates of the (at most one) attempted pair. -/
theorem processPair_spec (env : ScanEnv) (ck cl : String) (cred : Credential)
    (fw : String) (acc : ScanAcc) :
    (processPair env ck cl cred fw acc).db.checks = acc.db.checks ∧
    (processPair env ck cl cred fw acc).db.findings_history
      = acc.db.findings_history ∧
    (∃ new, (processPair env ck cl cred fw acc).db.findings
        = acc.db.findings ++ new ∧
      ∀ f ∈ new, f.compliance_check_id = ck ∧ f.client_id = cl ∧
        f.framework = fw) ∧
    (processPair env ck cl cred fw acc).k = acc.k ∧
    (processPair env ck cl cred fw acc).benchmarksRun
      = acc.benchmarksRun + (pairsOf env cred [fw]).length ∧
    (processPair env ck cl cred fw acc).benchmarksFailed
      = acc.benchmarksFailed + errCount (pairsOf env cred [fw]) ∧
    (processPair env ck cl cred fw acc).totalControls
      = acc.totalControls + specTotal (pairsOf env cred [fw]) ∧
    (processPair env ck cl cred fw acc).passedControls
      = acc.passedControls + specCount .pass (pairsOf env cred [fw]) ∧
    (processPair env ck cl cred fw acc).failedControls
      = acc.failedControls + specCount .fail (pairsOf env cred [fw]) ∧
    (processPair env ck cl cred fw acc).errorControls
      = acc.errorControls + specCount .error (pairsOf env cred [fw]) ∧
    (processPair env ck cl cred fw acc).skipControls
      = acc.skipControls + specCount .skip (pairsOf env cred [fw]) ∧
    (processPair env ck cl cred fw acc).verificationWarnings
      = acc.verificationWarnings ++ specWarnings (pairsOf env cred [fw]) := by
  rcases hbn : getBenchmarkName fw cred.provider with _ | b
  · refine ⟨?_, ?_, ?_, ?_, ?_, ?_, ?_, ?_, ?_, ?_, ?_, ?_⟩ <;>
      simp [processPair, hbn, pairsOf, errCount, specTotal, specCount,
        specWarnings, okRuns]
  · have hp : pairsOf env cred [fw] = [(b, env.runBenchmark b cred)] := by
      simp [pairsOf, hbn]
    rcases hr : env.runBenchmark b cred with e | r
    · refine ⟨?_, ?_, ?_, ?_, ?_, ?_, ?_, ?_, ?_, ?_, ?_, ?_⟩ <;>
        simp [processPair, hbn, hr, hp, errCount, specTotal, specCount,
          specWarnings, okRuns, runOk]
    · refine ⟨?_, ?_, ?_, ?_, ?_, ?_, ?_, ?_, ?_, ?_, ?_, ?_⟩ <;>
        simp [processPair, hbn, hr, hp, errCount, specTotal, specCount,
          specWarnings, okRuns, runOk, processControls_eq, mkFinding]
/-! ## Lemmas: the fan-out loops -/

/-- The framework loop with its checkpoints erased: what fwLoop computes
when no checkpoint breaches. -/
def fwFold (env : ScanEnv) (ck cl : String) (cred : Credential)
    (fws : List String) (acc : ScanAcc) : ScanAcc :=
  fws.foldl (fun a fw => processPair env ck cl cred fw { a with k := a.k + 1 }) acc

/-- The credential loop with its checkpoints erased. -/
def credFold (env : ScanEnv) (ck cl : String) (fws : List String)
    (creds : List Credential) (acc : ScanAcc) : ScanAcc :=
  creds.foldl (fun a cred => fwFold env ck cl cred fws { a with k := a.k + 1 }) acc

theorem fwFold_spec (env : ScanEnv) (ck cl : String) (cred : Credential) :
    ∀ (fws : List String) (acc : ScanAcc),
    (fwFold env ck cl cred fws acc).db.checks = acc.db.checks ∧
    (fwFold env ck cl cred fws acc).db.findings_history
      = acc.db.findings_history ∧
    (∃ new, (fwFold env ck cl cred fws acc).db.findings
        = acc.db.findings ++ new ∧
      ∀ f ∈ new, f.compliance_check_id = ck ∧ f.client_id = cl ∧
        f.framework ∈ fws) ∧
    (fwFold env ck cl cred fws acc).benchmarksRun
      = acc.benchmarksRun + (pairsOf env cred fws).length ∧
    (fwFold env ck cl cred fws acc).benchmarksFailed
      = acc.benchmarksFailed + errCount (pairsOf env cred fws) ∧
    (fwFold env ck cl cred fws acc).totalControls
      = acc.totalControls + specTotal (pairsOf env cred fws) ∧
    (fwFold env ck cl cred fws acc).passedControls
      = acc.passedControls + specCount .pass (pairsOf env cred fws) ∧
    (fwFold env ck cl cred fws acc).failedControls
      = acc.failedControls + specCount .fail (pairsOf env cred fws) ∧
    (fwFold env ck cl cred fws acc).errorControls
      = acc.errorControls + specCount .error (pairsOf env cred fws) ∧
    (fwFold env ck cl cred fws acc).skipControls
      = acc.skipControls + specCount .skip (pairsOf env cred fws) ∧
    (fwFold env ck cl cred fws acc).verificationWarnings
      = acc.verificationWarnings ++ specWarnings (pairsOf env cred fws) := by
  intro fws
  induction fws with
  | nil =>
    intro acc
    refine ⟨rfl, rfl, ⟨[], by simp [fwFold], by simp⟩, ?_, ?_, ?_, ?_, ?_,
      ?_, ?_, ?_⟩ <;>
      simp [fwFold, pairsOf, errCount, specTotal, specCount, specWarnings,
        okRuns]
  | cons fw rest ih =>
    intro acc
    have h1 := processPair_spec env ck cl cred fw { acc with k := acc.k + 1 }
    dsimp only at h1
    have h2 := ih (processPair env ck cl cred fw { acc with k := acc.k + 1 })
    have hfold : fwFold env ck cl cred (fw :: rest) acc
        = fwFold env ck cl cred rest
            (processPair env ck cl cred fw { acc with k := acc.k + 1 }) := rfl
    rw [hfold, pairsOf_cons]
    obtain ⟨h1c, h1h, ⟨n1, h1f, h1p⟩, h1k, h1r, h1bf, h1t, h1pa, h1fa, h1er,
      h1sk, h1w⟩ := h1
    obtain ⟨h2c, h2h, ⟨n2, h2f, h2p⟩, h2r, h2bf, h2t, h2pa, h2fa, h2er, h2sk,
      h2w⟩ := h2
    refine ⟨?_, ?_, ?_, ?_, ?_, ?_, ?_, ?_, ?_, ?_, ?_⟩
    · rw [h2c, h1c]
    · rw [h2h, h1h]
    · refine ⟨n1 ++ n2, ?_, ?_⟩
      · rw [h2f, h1f, List.append_assoc]
      · intro f hf
        rcases List.mem_append.mp hf with hh | hh
        · obtain ⟨ha, hb, hc2⟩ := h1p f hh
          exact ⟨ha, hb, by rw [hc2]; exact List.mem_cons_self fw rest⟩
        · obtain ⟨ha, hb, hc2⟩ := h2p f hh
          exact ⟨ha, hb, List.mem_cons_of_mem fw hc2⟩
    · rw [h2r, h1r, List.length_append]; omega
    · rw [h2bf, h1bf, errCount_append]; omega
    · rw [h2t, h1t, specTotal_append]; omega
    · rw [h2pa, h1pa, specCount_append]; omega
    · rw [h2fa, h1fa, specCount_append]; omega
    · rw [h2er, h1er, specCount_append]; omega
    · rw [h2sk, h1sk, specCount_append]; omega
    · rw [h2w, h1w, specWarnings_append, List.append_assoc]

theorem pairRuns_cons (env : ScanEnv) (cred : Credential)
    (rest : List Credential) (fws : List String) :
    pairRuns env (cred :: rest) fws
      = pairsOf env cred fws ++ pairRuns env rest fws := by
  simp [pairRuns]

theorem credFold_spec (env : ScanEnv) (ck cl : String) (fws : List String) :
    ∀ (creds : List Credential) (acc : ScanAcc),
    (credFold env ck cl fws creds acc).db.checks = acc.db.checks ∧
    (credFold env ck cl fws creds acc).db.findings_history
      = acc.db.findings_history ∧
    (∃ new, (credFold env ck cl fws creds acc).db.findings
        = acc.db.findings ++ new ∧
      ∀ f ∈ new, f.compliance_check_id = ck ∧ f.client_id = cl ∧
        f.framework ∈ fws) ∧
    (credFold env ck cl fws creds acc).benchmarksRun
      = acc.benchmarksRun + (pairRuns env creds fws).length ∧
    (credFold env ck cl fws creds acc).benchmarksFailed
      = acc.benchmarksFailed + errCount (pairRuns env creds fws) ∧
    (credFold env ck cl fws creds acc).totalControls
      = acc.totalControls + specTotal (pairRuns env creds fws) ∧
    (credFold env ck cl fws creds acc).passedControls
      = acc.passedControls + specCount .pass (pairRuns env creds fws) ∧
    (credFold env ck cl fws creds acc).failedControls
      = acc.failedControls + specCount .fail (pairRuns env creds fws) ∧
    (credFold env ck cl fws creds acc).errorControls
      = acc.errorControls + specCount .error (pairRuns env creds fws) ∧
    (credFold env ck cl fws creds acc).skipControls
      = acc.skipControls + specCount .skip (pairRuns env creds fws) ∧
    (credFold env ck cl fws creds acc).verificationWarnings
      = acc.verificationWarnings ++ specWarnings (pairRuns env creds fws) := by
  intro creds
  induction creds with
  | nil =>
    intro acc
    refine ⟨rfl, rfl, ⟨[], by simp [credFold], by simp⟩, ?_, ?_, ?_, ?_, ?_,
      ?_, ?_, ?_⟩ <;>
      simp [credFold, pairRuns, errCount, specTotal, specCount, specWarnings,
        okRuns]
  | cons cred rest ih =>
    intro acc
    have h1 := fwFold_spec env ck cl cred fws { acc with k := acc.k + 1 }
    dsimp only at h1
    have h2 := ih (fwFold env ck cl cred fws { acc with k := acc.k + 1 })
    have hfold : credFold env ck cl fws (cred :: rest) acc
        = credFold env ck cl fws rest
            (fwFold env ck cl cred fws { acc with k := acc.k + 1 }) := rfl
    rw [hfold, pairRuns_cons]
    obtain ⟨h1c, h1h, ⟨n1, h1f, h1p⟩, h1r, h1bf, h1t, h1pa, h1fa, h1er, h1sk,
      h1w⟩ := h1
    obtain ⟨h2c, h2h, ⟨n2, h2f, h2p⟩, h2r, h2bf, h2t, h2pa, h2fa, h2er, h2sk,
      h2w⟩ := h2
    refine ⟨?_, ?_, ?_, ?_, ?_, ?_, ?_, ?_, ?_, ?_, ?_⟩
    · rw [h2c, h1c]
    · rw [h2h, h1h]
    · refine ⟨n1 ++ n2, ?_, ?_⟩
      · rw [h2f, h1f, List.append_assoc]
      · intro f hf
        rcases List.mem_append.mp hf with hh | hh
        · exact h1p f hh
        · exact h2p f hh
    · rw [h2r, h1r, List.length_append]; omega
    · rw [h2bf, h1bf, errCount_append]; omega
    · rw [h2t, h1t, specTotal_append]; omega
    · rw [h2pa, h1pa, specCount_append]; omega
    · rw [h2fa, h1fa, specCount_append]; omega
    · rw [h2er, h1er, specCount_append]; omega
    · rw [h2sk, h1sk, specCount_append]; omega
    · rw [h2w, h1w, specWarnings_append, List.append_assoc]

/-- Case analysis of the framework loop: either every checkpoint passed
and the loop computed its fold, or it aborted at a checkpoint having set
the scan failed, touched nothing else, and appended only this run's
findings. -/
theorem fwLoop_cases (env : ScanEnv) (ck cl : String) (cred : Credential) :
    ∀ (fws : List String) (acc : ScanAcc),
    fwLoop env ck cl cred fws acc
        = (fwFold env ck cl cred fws acc, .finished) ∨
    ∃ acc2, fwLoop env ck cl cred fws acc = (acc2, .timedOut) ∧
      acc2.db.checks = updChecks acc.db.checks ck .failed ∧
      acc2.db.findings_history = acc.db.findings_history ∧
      ∃ new, acc2.db.findings = acc.db.findings ++ new ∧
        ∀ f ∈ new, f.compliance_check_id = ck ∧ f.client_id = cl ∧
          f.framework ∈ fws := by
  intro fws
  induction fws with
  | nil => intro acc; left; rfl
  | cons fw rest ih =>
    intro acc
    by_cases he : env.elapsedAt acc.k > MAX_SCAN_DURATION_MS
    · right
      refine ⟨{ acc with k := acc.k + 1, db := setCheckStatus acc.db ck .failed }, ?_, rfl, rfl, ⟨[], by simp [setCheckStatus], by simp⟩⟩
      simp [fwLoop, he]
    · have hstep : fwLoop env ck cl cred (fw :: rest) acc
          = fwLoop env ck cl cred rest
              (processPair env ck cl cred fw { acc with k := acc.k + 1 }) := by
        simp [fwLoop, he]
      have hpp := processPair_spec env ck cl cred fw { acc with k := acc.k + 1 }
      dsimp only at hpp
      rcases ih (processPair env ck cl cred fw { acc with k := acc.k + 1 })
        with h | ⟨acc2, heq, hch, hh, ⟨new, hf, hp⟩⟩
      · left
        rw [hstep, h]
        rfl
      · right
        refine ⟨acc2, by rw [hstep]; exact heq, ?_, ?_, ?_⟩
        · rw [hch, hpp.1]
        · rw [hh, hpp.2.1]
        · rcases hpp.2.2.1 with ⟨n1, h1f, h1p⟩
          refine ⟨n1 ++ new, by rw [hf, h1f, List.append_assoc], ?_⟩
          intro f hfm
          rcases List.mem_append.mp hfm with hh2 | hh2
          · obtain ⟨a, b2, c2⟩ := h1p f hh2
            exact ⟨a, b2, by rw [c2]; exact List.mem_cons_self fw rest⟩
          · obtain ⟨a, b2, c2⟩ := hp f hh2
            exact ⟨a, b2, List.mem_cons_of_mem fw c2⟩

/-- Case analysis of the credential loop, composing the framework loop. -/
theorem credLoop_cases (env : ScanEnv) (ck cl : String) (fws : List String) :
    ∀ (creds : List Credential) (acc : ScanAcc),
    credLoop env ck cl fws creds acc
        = (credFold env ck cl fws creds acc, .finished) ∨
    ∃ acc2, credLoop env ck cl fws creds acc = (acc2, .timedOut) ∧
      acc2.db.checks = updChecks acc.db.checks ck .failed ∧
      acc2.db.findings_history = acc.db.findings_history ∧
      ∃ new, acc2.db.findings = acc.db.findings ++ new ∧
        ∀ f ∈ new, f.compliance_check_id = ck ∧ f.client_id = cl ∧
          f.framework ∈ fws := by
  intro creds
  induction creds with
  | nil => intro acc; left; rfl
  | cons cred rest ih =>
    intro acc
    by_cases he : env.elapsedAt acc.k > MAX_SCAN_DURATION_MS
    · right
      refine ⟨{ acc with k := acc.k + 1, db := setCheckStatus acc.db ck .failed }, ?_, rfl, rfl, ⟨[], by simp [setCheckStatus], by simp⟩⟩
      simp [credLoop, he]
    · have hff := fwFold_spec env ck cl cred fws { acc with k := acc.k + 1 }
      dsimp only at hff
      rcases fwLoop_cases env ck cl cred fws { acc with k := acc.k + 1 }
        with hfl | ⟨acc2, heq, hch, hh, ⟨new, hf, hp⟩⟩
      · have hstep : credLoop env ck cl fws (cred :: rest) acc
            = credLoop env ck cl fws rest
                (fwFold env ck cl cred fws { acc with k := acc.k + 1 }) := by
          simp [credLoop, he, hfl]
        rcases ih (fwFold env ck cl cred fws { acc with k := acc.k + 1 })
          with h | ⟨acc3, heq3, hch3, hh3, ⟨new3, hf3, hp3⟩⟩
        · left
          rw [hstep, h]
          rfl
        · right
          refine ⟨acc3, by rw [hstep]; exact heq3, ?_, ?_, ?_⟩
          · rw [hch3, hff.1]
          · rw [hh3, hff.2.1]
          · rcases hff.2.2.1 with ⟨n1, h1f, h1p⟩
            refine ⟨n1 ++ new3, by rw [hf3, h1f, List.append_assoc], ?_⟩
            intro f hfm
            rcases List.mem_append.mp hfm with hh2 | hh2
            · exact h1p f hh2
            · exact hp3 f hh2
      · right
        have hstep : credLoop env ck cl fws (cred :: rest) acc
            = (acc2, .timedOut) := by
          simp [credLoop, he, heq]
        exact ⟨acc2, hstep, hch, hh, ⟨new, hf, hp⟩⟩

/-- When the clock never exceeds the budget, the framework loop is its
fold. -/
theorem fwLoop_no_timeout (env : ScanEnv) (ck cl : String) (cred : Credential)
    (h : ∀ j, env.elapsedAt j ≤ MAX_SCAN_DURATION_MS) :
    ∀ (fws : List String) (acc : ScanAcc),
    fwLoop env ck cl cred fws acc
      = (fwFold env ck cl cred fws acc, .finished) := by
  intro fws
  induction fws with
  | nil => intro acc; rfl
  | cons fw rest ih =>
    intro acc
    have he : ¬ env.elapsedAt acc.k > MAX_SCAN_DURATION_MS := by
      have := h acc.k
      omega
    have hstep : fwLoop env ck cl cred (fw :: rest) acc
        = fwLoop env ck cl cred rest
            (processPair env ck cl cred fw { acc with k := acc.k + 1 }) := by
      simp [fwLoop, he]
    rw [hstep, ih]
    rfl

/-- When the clock never exceeds the budget, the credential loop is its
fold. -/
theorem credLoop_no_timeout (env : ScanEnv) (ck cl : String)
    (fws : List String)
    (h : ∀ j, env.elapsedAt j ≤ MAX_SCAN_DURATION_MS) :
    ∀ (creds : List Credential) (acc : ScanAcc),
    credLoop env ck cl fws creds acc
      = (credFold env ck cl fws creds acc, .finished) := by
  intro creds
  induction creds with
  | nil => intro acc; rfl
  | cons cred rest ih =>
    intro acc
    have he : ¬ env.elapsedAt acc.k > MAX_SCAN_DURATION_MS := by
      have := h acc.k
      omega
    have hstep : credLoop env ck cl fws (cred :: rest) acc
        = credLoop env ck cl fws rest
            (fwFold env ck cl cred fws { acc with k := acc.k + 1 }) := by
      simp [credLoop, he, fwLoop_no_timeout env ck cl cred h fws]
    rw [hstep, ih]
    rfl

/-! ## Lemmas: the run as a whole -/

theorem length_filter_lt {α : Type} (l : List α) (p : α → Bool) (x : α)
    (hx : x ∈ l) (hp : p x = false) :
    (l.filter p).length < l.length := by
  induction l with
  | nil => cases hx
  | cons a t ih =>
    rcases List.mem_cons.mp hx with rfl | hx2
    · simp only [List.filter_cons, hp, Bool.false_eq_true, if_false]
      have := List.length_filter_le p t
      simp only [List.length_cons]
      omega
    · cases hpa : p a
      · simp only [List.filter_cons, hpa, Bool.false_eq_true, if_false,
          List.length_cons]
        have := List.length_filter_le p t
        omega
      · simp only [List.filter_cons, hpa, if_true, List.length_cons]
        have := ih hx2
        omega

theorem errCount_lt_of_ok (rs : List (String × Except String BenchResult))
    (h : ∃ p ∈ rs, runOk p.2 = true) : errCount rs < rs.length := by
  rcases h with ⟨p, hp, hok⟩
  unfold errCount
  exact length_filter_lt rs _ p hp (by simp [hok])

theorem errCount_eq_of_all_fail
    (rs : List (String × Except String BenchResult))
    (h : ∀ p ∈ rs, runOk p.2 = false) : errCount rs = rs.length := by
  unfold errCount
  rw [List.filter_eq_self.mpr (fun p hp => by simp [h p hp])]

theorem finishOutcome_fields (ck : String) (acc : ScanAcc) :
    (finishOutcome ck acc).findings = acc.db.findings ∧
    (finishOutcome ck acc).findings_history = acc.db.findings_history := by
  unfold finishOutcome
  split_ifs <;> exact ⟨rfl, rfl⟩

theorem executeScan_early (env : ScanEnv) (ck cl : String)
    (fws : List String) (creds : List Credential) (db : DB)
    (h1 : hasCheck db ck = true)
    (h2 : env.elapsedAt 0 > MAX_SCAN_DURATION_MS) :
    executeScan env ck cl fws creds db = setCheckStatus db ck .failed := by
  simp [executeScan, h1, h2]

theorem executeScan_not_early (env : ScanEnv) (ck cl : String)
    (fws : List String) (creds : List Credential) (db : DB)
    (h : (hasCheck db ck
      && decide (env.elapsedAt 0 > MAX_SCAN_DURATION_MS)) = false) :
    executeScan env ck cl fws creds db
      = (match credLoop env ck cl fws creds
            (initAcc (archiveFindings db ck cl fws)) with
         | (acc, .timedOut) => acc.db
         | (acc, .finished) => finishOutcome ck acc) := by
  simp only [executeScan, h, Bool.false_eq_true, if_false]

/-- Every non-early run first archives: the history gains exactly the
snapshots of the matching live findings tagged with this scan id, the
matching live findings are removed, and the findings appended afterwards
all carry this scan id, this client and a framework of the set. -/
theorem executeScan_run_shape (env : ScanEnv) (ck cl : String)
    (fws : List String) (creds : List Credential) (db : DB)
    (h : (hasCheck db ck
      && decide (env.elapsedAt 0 > MAX_SCAN_DURATION_MS)) = false) :
    (executeScan env ck cl fws creds db).findings_history
      = db.findings_history
        ++ (db.findings.filter (archivedMatch cl fws)).map (toHistoryRow ck) ∧
    ∃ new, (executeScan env ck cl fws creds db).findings
        = db.findings.filter (fun f => !(archivedMatch cl fws f)) ++ new ∧
      ∀ f ∈ new, f.compliance_check_id = ck ∧ f.client_id = cl ∧
        f.framework ∈ fws := by
  rw [executeScan_not_early env ck cl fws creds db h]
  rcases credLoop_cases env ck cl fws creds
      (initAcc (archiveFindings db ck cl fws))
    with hfin | ⟨acc2, heq, hch, hh, ⟨new, hf, hp⟩⟩
  · rw [hfin]
    dsimp only
    have hcf := credFold_spec env ck cl fws creds
      (initAcc (archiveFindings db ck cl fws))
    obtain ⟨hc, hhist, ⟨n2, hfind, hprop⟩, _⟩ := hcf
    have hfo := finishOutcome_fields ck
      (credFold env ck cl fws creds (initAcc (archiveFindings db ck cl fws)))
    constructor
    · rw [hfo.2, hhist]
      rfl
    · exact ⟨n2, by rw [hfo.1, hfind]; rfl, hprop⟩
  · rw [heq]
    dsimp only
    constructor
    · rw [hh]
      rfl
    · exact ⟨new, by rw [hf]; rfl, hp⟩

/-! ## Claim C4 -/

/-- C4: elapsed time is checked before the run begins and at the
checkpoint before every pair. A breach at the pre-run checkpoint marks
the scan failed and returns at once; a breach at a loop checkpoint marks
the scan failed and returns immediately with the accumulator otherwise
unchanged, so no further pair is processed and the findings already
written stay in place (the status update only rewrites the checks
table, as the last conjunct states). -/
theorem c4_timeout_checkpoints (env : ScanEnv) (ck cl : String)
    (fws : List String) (creds : List Credential) (db : DB)
    (cred : Credential) (fw : String) (rest : List String)
    (restC : List Credential) (acc : ScanAcc) :
    (hasCheck db ck = true → env.elapsedAt 0 > MAX_SCAN_DURATION_MS →
      executeScan env ck cl fws creds db = setCheckStatus db ck .failed) ∧
    (env.elapsedAt acc.k > MAX_SCAN_DURATION_MS →
      fwLoop env ck cl cred (fw :: rest) acc
        = ({ acc with k := acc.k + 1, db := setCheckStatus acc.db ck .failed }, .timedOut)) ∧
    (env.elapsedAt acc.k > MAX_SCAN_DURATION_MS →
      credLoop env ck cl fws (cred :: restC) acc
        = ({ acc with k := acc.k + 1, db := setCheckStatus acc.db ck .failed }, .timedOut)) ∧
    ((setCheckStatus acc.db ck .failed).findings = acc.db.findings ∧
     (setCheckStatus acc.db ck .failed).findings_history
        = acc.db.findings_history) := by
  refine ⟨fun h1 h2 => executeScan_early env ck cl fws creds db h1 h2,
    ?_, ?_, rfl, rfl⟩
  · intro he
    simp [fwLoop, he]
  · intro he
    simp [credLoop, he]

/-- The store and environment of the timeout witness run. -/
def c4db : DB :=
  { clients := [], credentials := []
  , checks := [newCheck "s" "t" ["HIPAA"]]
  , findings := [], findings_history := [], control_metadata := [] }

/-- A clock that is already past the budget at every read. -/
def c4env : ScanEnv :=
  { runBenchmark := fun _ _ => .error "down"
  , elapsedAt := fun _ => MAX_SCAN_DURATION_MS + 1 }

/-- The accumulator at the first loop checkpoint of that run. -/
def c4acc : ScanAcc := initAcc c4db

/-- C4 witness: with the budget already exceeded, the run marks the scan
failed at the pre-run checkpoint, and the framework loop marks it failed
at its checkpoint and stops. -/
theorem c4_witness :
    hasCheck c4db "s" = true ∧
    c4env.elapsedAt 0 > MAX_SCAN_DURATION_MS ∧
    executeScan c4env "s" "t" ["HIPAA"] [] c4db
      = setCheckStatus c4db "s" .failed ∧
    fwLoop c4env "s" "t" { id := "cr", provider := "aws" } ["HIPAA"] c4acc
      = ({ c4acc with k := c4acc.k + 1, db := setCheckStatus c4acc.db "s" .failed }, .timedOut) := by
  have h := c4_timeout_checkpoints c4env "s" "t" ["HIPAA"] []
    c4db { id := "cr", provider := "aws" } "HIPAA" [] [] c4acc
  exact ⟨by decide, by decide, h.1 (by decide) (by decide),
    h.2.1 (by decide)⟩

/-! ## Claim C5 -/

theorem scanStatus_finishOutcome_all_failed (ck : String) (acc : ScanAcc)
    (hrun : 0 < acc.benchmarksRun)
    (heq : acc.benchmarksFailed = acc.benchmarksRun)
    (hdb : hasCheck acc.db ck = true) :
    scanStatus (finishOutcome ck acc) ck = some .failed := by
  unfold finishOutcome
  rw [if_pos (by simp [hrun, heq])]
  exact scanStatus_setCheckStatus acc.db ck .failed hdb

theorem scanStatus_finishOutcome_some_ok (ck : String) (acc : ScanAcc)
    (hlt : acc.benchmarksFailed < acc.benchmarksRun)
    (hdb : hasCheck acc.db ck = true) :
    ∃ c, checkRow acc.db ck = some c ∧
      checkRow (finishOutcome ck acc) ck = some
        { c with
          status := .completed
          total_controls := acc.totalControls
          passed_controls := acc.passedControls
          failed_controls := acc.failedControls
          error_controls := acc.errorControls
          skip_controls := acc.skipControls
          verification_warnings := acc.verificationWarnings } := by
  have hne : (acc.benchmarksFailed == acc.benchmarksRun) = false := by
    simp only [beq_eq_false_iff_ne, ne_eq]
    omega
  have hz : (acc.benchmarksRun == 0) = false := by
    simp only [beq_eq_false_iff_ne, ne_eq]
    omega
  unfold finishOutcome
  rw [if_neg (by simp [hne]), if_neg (by simp [hz])]
  rcases (hasCheck_iff acc.db ck).mp hdb with ⟨c, hc⟩
  refine ⟨c, hc, ?_⟩
  rw [checkRow_completeCheck, hc]
  rfl

theorem scanStatus_finishOutcome_terminal (ck : String) (acc : ScanAcc)
    (hdb : hasCheck acc.db ck = true) :
    scanStatus (finishOutcome ck acc) ck = some .completed ∨
    scanStatus (finishOutcome ck acc) ck = some .failed := by
  unfold finishOutcome
  split_ifs
  · right; exact scanStatus_setCheckStatus _ _ _ hdb
  · right; exact scanStatus_setCheckStatus _ _ _ hdb
  · left
    rcases (hasCheck_iff acc.db ck).mp hdb with ⟨c, hc⟩
    rw [scanStatus, checkRow_completeCheck, hc]
    rfl

/-- C5: with at least one attempted pair (an existing benchmark mapping),
if every attempted invocation fails the scan ends failed, never completed,
whatever the clock does; and if no checkpoint breaches the budget and at
least one attempted pair succeeds, the scan ends completed carrying the
aggregated pass, fail, error and skip counts and the accumulated,
benchmark-prefixed warning list. -/
theorem c5_outcome (env : ScanEnv) (ck cl : String) (fws : List String)
    (creds : List Credential) (db : DB) (h : hasCheck db ck = true) :
    ((pairRuns env creds fws ≠ [] ∧
        ∀ p ∈ pairRuns env creds fws, runOk p.2 = false) →
      scanStatus (executeScan env ck cl fws creds db) ck = some .failed) ∧
    (((∀ j, env.elapsedAt j ≤ MAX_SCAN_DURATION_MS) ∧
        ∃ p ∈ pairRuns env creds fws, runOk p.2 = true) →
      ∃ c, checkRow (executeScan env ck cl fws creds db) ck = some c ∧
        c.status = .completed ∧
        c.total_controls = specTotal (pairRuns env creds fws) ∧
        c.passed_controls = specCount .pass (pairRuns env creds fws) ∧
        c.failed_controls = specCount .fail (pairRuns env creds fws) ∧
        c.error_controls = specCount .error (pairRuns env creds fws) ∧
        c.skip_controls = specCount .skip (pairRuns env creds fws) ∧
        c.verification_warnings = specWarnings (pairRuns env creds fws)) := by
  constructor
  · rintro ⟨hne, hall⟩
    by_cases hcond : (hasCheck db ck
        && decide (env.elapsedAt 0 > MAX_SCAN_DURATION_MS)) = true
    · have h2 : env.elapsedAt 0 > MAX_SCAN_DURATION_MS := by
        by_contra hno
        simp [hno] at hcond
      rw [executeScan_early env ck cl fws creds db h h2]
      exact scanStatus_setCheckStatus db ck .failed h
    · have hcond2 : (hasCheck db ck
          && decide (env.elapsedAt 0 > MAX_SCAN_DURATION_MS)) = false :=
        Bool.eq_false_iff.mpr hcond
      rw [executeScan_not_early env ck cl fws creds db hcond2]
      rcases credLoop_cases env ck cl fws creds
          (initAcc (archiveFindings db ck cl fws))
        with hfin | ⟨acc2, heq, hch, hh, hex⟩
      · rw [hfin]
        dsimp only
        have hcf := credFold_spec env ck cl fws creds
          (initAcc (archiveFindings db ck cl fws))
        obtain ⟨hc, _, _, hr, hbf, _⟩ := hcf
        have e0 : (initAcc (archiveFindings db ck cl fws)).benchmarksRun
            = 0 := rfl
        have e1 : (initAcc (archiveFindings db ck cl fws)).benchmarksFailed
            = 0 := rfl
        rw [e0, Nat.zero_add] at hr
        rw [e1, Nat.zero_add] at hbf
        apply scanStatus_finishOutcome_all_failed
        · rw [hr]
          exact List.length_pos.mpr hne
        · rw [hbf, hr]
          exact errCount_eq_of_all_fail _ hall
        · unfold hasCheck
          rw [hc]
          exact h
      · rw [heq]
        dsimp only
        have hch2 : acc2.db.checks = updChecks db.checks ck .failed := hch
        exact scanStatus_of_updChecks acc2.db db ck .failed hch2 h
  · rintro ⟨hel, hok⟩
    have h0 : ¬ (env.elapsedAt 0 > MAX_SCAN_DURATION_MS) := by
      have := hel 0
      omega
    have hcond2 : (hasCheck db ck
        && decide (env.elapsedAt 0 > MAX_SCAN_DURATION_MS)) = false := by
      simp [h0]
    rw [executeScan_not_early env ck cl fws creds db hcond2,
      credLoop_no_timeout env ck cl fws hel creds
        (initAcc (archiveFindings db ck cl fws))]
    dsimp only
    have hcf := credFold_spec env ck cl fws creds
      (initAcc (archiveFindings db ck cl fws))
    obtain ⟨hc, hh2, hex2, hr, hbf, ht, hpa, hfa, her, hsk, hw⟩ := hcf
    have e0 : (initAcc (archiveFindings db ck cl fws)).benchmarksRun
        = 0 := rfl
    have e1 : (initAcc (archiveFindings db ck cl fws)).benchmarksFailed
        = 0 := rfl
    have e2 : (initAcc (archiveFindings db ck cl fws)).totalControls
        = 0 := rfl
    have e3 : (initAcc (archiveFindings db ck cl fws)).passedControls
        = 0 := rfl
    have e4 : (initAcc (archiveFindings db ck cl fws)).failedControls
        = 0 := rfl
    have e5 : (initAcc (archiveFindings db ck cl fws)).errorControls
        = 0 := rfl
    have e6 : (initAcc (archiveFindings db ck cl fws)).skipControls
        = 0 := rfl
    have e7 : (initAcc (archiveFindings db ck cl fws)).verificationWarnings
        = [] := rfl
    rw [e0, Nat.zero_add] at hr
    rw [e1, Nat.zero_add] at hbf
    rw [e2, Nat.zero_add] at ht
    rw [e3, Nat.zero_add] at hpa
    rw [e4, Nat.zero_add] at hfa
    rw [e5, Nat.zero_add] at her
    rw [e6, Nat.zero_add] at hsk
    rw [e7, List.nil_append] at hw
    have hlt : (credFold env ck cl fws creds
        (initAcc (archiveFindings db ck cl fws))).benchmarksFailed
        < (credFold env ck cl fws creds
            (initAcc (archiveFindings db ck cl fws))).benchmarksRun := by
      rw [hbf, hr]
      exact errCount_lt_of_ok _ hok
    have hdb : hasCheck (credFold env ck cl fws creds
        (initAcc (archiveFindings db ck cl fws))).db ck = true := by
      unfold hasCheck
      rw [hc]
      exact h
    obtain ⟨c, hcrow, hcrow2⟩ :=
      scanStatus_finishOutcome_some_ok ck _ hlt hdb
    exact ⟨_, hcrow2, rfl, ht, hpa, hfa, her, hsk, hw⟩

/-! ## Claim C3 -/

theorem archivedMatch_true (client : String) (fws : List String)
    (f : Finding) (h1 : f.client_id = client) (h2 : f.framework ∈ fws) :
    archivedMatch client fws f = true := by
  simp [archivedMatch, h1, h2]

/-- Counting helper for the archived snapshots: when every finding of the
prior scan id matches the archive predicate, the history rows whose
snapshot references that id are exactly that scan's findings. -/
theorem count_archived (id1 id2 : String) (q : Finding → Bool) :
    ∀ l : List Finding,
    (∀ f ∈ l, f.compliance_check_id = id1 → q f = true) →
    (((l.filter q).map (toHistoryRow id2)).filter
        (fun r => r.snapshot.compliance_check_id == id1)).length
      = (l.filter (fun f => f.compliance_check_id == id1)).length := by
  intro l
  induction l with
  | nil => intro _; rfl
  | cons f t ih =>
    intro h
    have ht := ih (fun g hg => h g (List.mem_cons_of_mem f hg))
    by_cases hf : f.compliance_check_id = id1
    · have hq := h f (List.mem_cons_self f t) hf
      simp [List.filter_cons, hq, hf, toHistoryRow, ht]
    · cases hq : q f
      · simp [List.filter_cons, hq, hf, ht]
      · simp [List.filter_cons, hq, hf, toHistoryRow, ht]

/-- C3: across two consecutive runs over the same tenant and framework
set, the second run first copies every live finding of the pair into the
history tagged with its own id and deletes them, before writing its own
findings; consequently the live findings of the pair afterwards are
exactly the second scan's records, and the history rows whose snapshot
references the first scan are exactly as many as the first scan's
findings. The freshness hypotheses say the two scan ids are new, and the
elapsed hypothesis says the second run is not already past its budget at
its pre-run checkpoint (otherwise it aborts before archiving). -/
theorem c3_archive_before_write (env1 env2 : ScanEnv)
    (id1 id2 client : String) (fws : List String)
    (creds1 creds2 : List Credential) (db0 : DB)
    (hid : id1 ≠ id2)
    (hf1 : ∀ f ∈ db0.findings, f.compliance_check_id ≠ id1)
    (hf2 : ∀ f ∈ db0.findings, f.compliance_check_id ≠ id2)
    (hh1 : ∀ r ∈ db0.findings_history, r.snapshot.compliance_check_id ≠ id1)
    (he : env2.elapsedAt 0 ≤ MAX_SCAN_DURATION_MS) :
    (executeScan env2 id2 client fws creds2 (executeScan env1 id1 client fws creds1 db0)).findings_history
      = (executeScan env1 id1 client fws creds1 db0).findings_history
        ++ ((executeScan env1 id1 client fws creds1 db0).findings.filter
              (archivedMatch client fws)).map (toHistoryRow id2) ∧
    (∃ new2, (executeScan env2 id2 client fws creds2 (executeScan env1 id1 client fws creds1 db0)).findings
        = (executeScan env1 id1 client fws creds1 db0).findings.filter
            (fun f => !(archivedMatch client fws f)) ++ new2 ∧
      ∀ f ∈ new2, f.compliance_check_id = id2 ∧ f.client_id = client ∧
        f.framework ∈ fws) ∧
    (executeScan env2 id2 client fws creds2 (executeScan env1 id1 client fws creds1 db0)).findings.filter
        (archivedMatch client fws)
      = (executeScan env2 id2 client fws creds2 (executeScan env1 id1 client fws creds1 db0)).findings.filter
          (fun f => f.compliance_check_id == id2) ∧
    ((executeScan env2 id2 client fws creds2 (executeScan env1 id1 client fws creds1 db0)).findings_history.filter
        (fun r => r.snapshot.compliance_check_id == id1)).length
      = ((executeScan env1 id1 client fws creds1 db0).findings.filter
          (fun f => f.compliance_check_id == id1)).length := by
  set db1 := executeScan env1 id1 client fws creds1 db0 with hdb1
  have h1case : (db1.findings_history = db0.findings_history ∧
      db1.findings = db0.findings) ∨
      (db1.findings_history = db0.findings_history
          ++ (db0.findings.filter (archivedMatch client fws)).map
              (toHistoryRow id1) ∧
        ∃ new1, db1.findings = db0.findings.filter
            (fun f => !(archivedMatch client fws f)) ++ new1 ∧
          ∀ f ∈ new1, f.compliance_check_id = id1 ∧ f.client_id = client ∧
            f.framework ∈ fws) := by
    cases hcond : (hasCheck db0 id1
        && decide (env1.elapsedAt 0 > MAX_SCAN_DURATION_MS))
    · right
      obtain ⟨ha, hb⟩ := executeScan_run_shape env1 id1 client fws creds1
        db0 hcond
      rw [hdb1]
      exact ⟨ha, hb⟩
    · left
      have hhc : hasCheck db0 id1 = true := by
        cases hv : hasCheck db0 id1
        · rw [hv] at hcond; simp at hcond
        · rfl
      have helap : env1.elapsedAt 0 > MAX_SCAN_DURATION_MS := by
        by_contra hno
        simp [hno] at hcond
      rw [hdb1, executeScan_early env1 id1 client fws creds1 db0 hhc helap]
      exact ⟨rfl, rfl⟩
  have hA : ∀ r ∈ db1.findings_history,
      r.snapshot.compliance_check_id ≠ id1 := by
    rcases h1case with ⟨hh, _⟩ | ⟨hh, _⟩
    · rw [hh]; exact hh1
    · rw [hh]
      intro r hr
      rcases List.mem_append.mp hr with h | h
      · exact hh1 r h
      · rcases List.mem_map.mp h with ⟨f, hf, rfl⟩
        exact hf1 f (List.mem_of_mem_filter hf)
  have hB : ∀ f ∈ db1.findings, f.compliance_check_id = id1 →
      archivedMatch client fws f = true := by
    rcases h1case with ⟨_, hfeq⟩ | ⟨_, new1, hfeq, hnew⟩
    · rw [hfeq]
      intro f hf hid1
      exact absurd hid1 (hf1 f hf)
    · rw [hfeq]
      intro f hf hid1
      rcases List.mem_append.mp hf with h | h
      · exact absurd hid1 (hf1 f (List.mem_of_mem_filter h))
      · obtain ⟨_, hcl, hfw⟩ := hnew f h
        exact archivedMatch_true client fws f hcl hfw
  have hC : ∀ f ∈ db1.findings, f.compliance_check_id ≠ id2 := by
    rcases h1case with ⟨_, hfeq⟩ | ⟨_, new1, hfeq, hnew⟩
    · rw [hfeq]; exact hf2
    · rw [hfeq]
      intro f hf
      rcases List.mem_append.mp hf with h | h
      · exact hf2 f (List.mem_of_mem_filter h)
      · rw [(hnew f h).1]
        exact fun hx => hid hx
  have hcond2 : (hasCheck db1 id2
      && decide (env2.elapsedAt 0 > MAX_SCAN_DURATION_MS)) = false := by
    have hno : ¬ (env2.elapsedAt 0 > MAX_SCAN_DURATION_MS) := by omega
    simp [hno]
  obtain ⟨h2hist, new2, h2find, hnew2⟩ :=
    executeScan_run_shape env2 id2 client fws creds2 db1 hcond2
  refine ⟨h2hist, ⟨new2, h2find, hnew2⟩, ?_, ?_⟩
  · rw [h2find, List.filter_append, List.filter_append]
    have hL1 : (db1.findings.filter
        (fun f => !(archivedMatch client fws f))).filter
          (archivedMatch client fws) = [] := by
      simp [List.filter_filter]
    have hL2 : new2.filter (archivedMatch client fws) = new2 :=
      List.filter_eq_self.mpr (fun f hf =>
        archivedMatch_true client fws f (hnew2 f hf).2.1 (hnew2 f hf).2.2)
    have hR1 : (db1.findings.filter
        (fun f => !(archivedMatch client fws f))).filter
          (fun f => f.compliance_check_id == id2) = [] := by
      rw [List.filter_filter]
      rw [List.filter_eq_nil_iff]
      intro a ha
      simp [hC a ha]
    have hR2 : new2.filter (fun f => f.compliance_check_id == id2) = new2 :=
      List.filter_eq_self.mpr (fun f hf => by simp [(hnew2 f hf).1])
    rw [hL1, hL2, hR1, hR2]
  · rw [h2hist, List.filter_append, List.length_append]
    have hz : db1.findings_history.filter
        (fun r => r.snapshot.compliance_check_id == id1) = [] := by
      rw [List.filter_eq_nil_iff]
      intro r hr
      simp [hA r hr]
    rw [hz]
    simp only [List.length_nil, Nat.zero_add]
    exact count_archived id1 id2 (archivedMatch client fws) db1.findings hB

/-- A passing control for the successful-run witness. -/
def c5ctl : NControl :=
  { control_id := "x", title := "X", description := "", status := .pass
  , reason := none, resources := none, permission_error := false
  , error_type := none }

/-- A store with one in-progress scan row. -/
def c5db : DB :=
  { clients := [], credentials := []
  , checks := [newCheck "s" "t" ["HIPAA"]]
  , findings := [], findings_history := [], control_metadata := [] }

/-- An engine that succeeds with one control and one warning, under a
clock that never advances. -/
def c5env : ScanEnv :=
  { runBenchmark := fun _ _ => .ok { controls := [c5ctl], warnings := ["w1"] }
  , elapsedAt := fun _ => 0 }

/-- The single aws credential of the witness run. -/
def c5cred : Credential := { id := "cr", provider := "aws" }

/-- C5 witness: one successful HIPAA pair, no timeout: the scan completes
with the aggregated counts and the prefixed warning list. -/
theorem c5_witness :
    hasCheck c5db "s" = true ∧
    (∀ j, c5env.elapsedAt j ≤ MAX_SCAN_DURATION_MS) ∧
    (∃ p ∈ pairRuns c5env [c5cred] ["HIPAA"], runOk p.2 = true) ∧
    (∃ c, checkRow (executeScan c5env "s" "t" ["HIPAA"] [c5cred] c5db) "s"
        = some c ∧
      c.status = .completed ∧
      c.total_controls = specTotal (pairRuns c5env [c5cred] ["HIPAA"]) ∧
      c.passed_controls = specCount .pass (pairRuns c5env [c5cred] ["HIPAA"]) ∧
      c.failed_controls = specCount .fail (pairRuns c5env [c5cred] ["HIPAA"]) ∧
      c.error_controls = specCount .error (pairRuns c5env [c5cred] ["HIPAA"]) ∧
      c.skip_controls = specCount .skip (pairRuns c5env [c5cred] ["HIPAA"]) ∧
      c.verification_warnings
        = specWarnings (pairRuns c5env [c5cred] ["HIPAA"])) := by
  refine ⟨by decide, fun j => Nat.zero_le _, by decide, ?_⟩
  exact (c5_outcome c5env "s" "t" ["HIPAA"] [c5cred] c5db (by decide)).2
    ⟨fun j => Nat.zero_le _, by decide⟩

/-! ## Claim C10 -/

/-- A store with two fresh scan rows and no findings yet. -/
def c3db0 : DB :=
  { clients := [], credentials := []
  , checks := [newCheck "s1" "t" ["HIPAA"], newCheck "s2" "t" ["HIPAA"]]
  , findings := [], findings_history := [], control_metadata := [] }

/-- C3 witness: the archive-before-write conclusions evaluated on two
consecutive concrete runs for the same tenant and framework set. -/
theorem c3_witness :
    ("s1" : String) ≠ "s2" ∧
    (∀ f ∈ c3db0.findings, f.compliance_check_id ≠ "s1") ∧
    (∀ f ∈ c3db0.findings, f.compliance_check_id ≠ "s2") ∧
    (∀ r ∈ c3db0.findings_history, r.snapshot.compliance_check_id ≠ "s1") ∧
    c5env.elapsedAt 0 ≤ MAX_SCAN_DURATION_MS ∧
    ((executeScan c5env "s2" "t" ["HIPAA"] [c5cred] (executeScan c5env "s1" "t" ["HIPAA"] [c5cred] c3db0)).findings_history
        = (executeScan c5env "s1" "t" ["HIPAA"] [c5cred] c3db0).findings_history
          ++ ((executeScan c5env "s1" "t" ["HIPAA"] [c5cred] c3db0).findings.filter
                (archivedMatch "t" ["HIPAA"])).map (toHistoryRow "s2") ∧
      (∃ new2, (executeScan c5env "s2" "t" ["HIPAA"] [c5cred]
            (executeScan c5env "s1" "t" ["HIPAA"] [c5cred] c3db0)).findings
          = (executeScan c5env "s1" "t" ["HIPAA"] [c5cred] c3db0).findings.filter
              (fun f => !(archivedMatch "t" ["HIPAA"] f)) ++ new2 ∧
        ∀ f ∈ new2, f.compliance_check_id = "s2" ∧ f.client_id = "t" ∧
          f.framework ∈ ["HIPAA"]) ∧
      (executeScan c5env "s2" "t" ["HIPAA"] [c5cred] (executeScan c5env "s1" "t" ["HIPAA"] [c5cred] c3db0)).findings.filter
          (archivedMatch "t" ["HIPAA"])
        = (executeScan c5env "s2" "t" ["HIPAA"] [c5cred]
            (executeScan c5env "s1" "t" ["HIPAA"] [c5cred] c3db0)).findings.filter
            (fun f => f.compliance_check_id == "s2") ∧
      ((executeScan c5env "s2" "t" ["HIPAA"] [c5cred]
          (executeScan c5env "s1" "t" ["HIPAA"] [c5cred] c3db0)).findings_history.filter
          (fun r => r.snapshot.compliance_check_id == "s1")).length
        = ((executeScan c5env "s1" "t" ["HIPAA"] [c5cred] c3db0).findings.filter
            (fun f => f.compliance_check_id == "s1")).length) :=
  ⟨by decide, by decide, by decide, by decide, by decide,
    c3_archive_before_write c5env c5env "s1" "s2" "t" ["HIPAA"]
      [c5cred] [c5cred] c3db0 (by decide) (by decide) (by decide)
      (by decide) (by decide)⟩

/-- A store whose scan row is already terminal (failed). -/
def c10db : DB :=
  { clients := [], credentials := []
  , checks := [{ newCheck "s" "t" ["HIPAA"] with status := ScanStatus.failed }]
  , findings := [], findings_history := [], control_metadata := [] }

/-- An engine that succeeds immediately, under a clock that never
advances. -/
def c10env : ScanEnv :=
  { runBenchmark := fun _ _ => .ok { controls := [], warnings := [] }
  , elapsedAt := fun _ => 0 }

/-- C10 counterexample: the terminal update of the background run does not
check the stored status (its UPDATE has no status condition), so a scan
already marked failed, as the list or detail endpoint does on timeout
while the run is still executing, is overwritten to completed when the
run finishes: terminal states are not final under the operations of the
core as implemented. -/
theorem c10_counterexample :
    scanStatus c10db "s" = some ScanStatus.failed ∧
    scanStatus (executeScan c10env "s" "t" ["HIPAA"]
      [{ id := "cr", provider := "aws" }] c10db) "s"
      = some ScanStatus.completed ∧
    ScanStatus.completed ≠ ScanStatus.failed :=
  ⟨by decide, by decide, by decide⟩

/-- C10 amended: the timeout marking of the list and detail endpoints
never touches a completed or failed scan, and a background run always
leaves the scan in a terminal state, completed or failed; but because the
run's terminal updates do not guard on the stored status, finality of
terminal states holds only while no concurrent operation has already
terminalized the scan mid-run. -/
theorem c10_lifecycle_amended (elapsed : Nat) (c : Check) (env : ScanEnv)
    (ck cl : String) (fws : List String) (creds : List Credential)
    (db : DB) :
    ((c.status = .completed ∨ c.status = .failed) →
      markTimedOutScan elapsed c = c) ∧
    (hasCheck db ck = true →
      scanStatus (executeScan env ck cl fws creds db) ck = some .completed ∨
      scanStatus (executeScan env ck cl fws creds db) ck = some .failed) := by
  constructor
  · intro hterm
    unfold markTimedOutScan
    rcases hterm with h | h <;> simp [h]
  · intro h
    by_cases hcond : (hasCheck db ck
        && decide (env.elapsedAt 0 > MAX_SCAN_DURATION_MS)) = true
    · right
      have h2 : env.elapsedAt 0 > MAX_SCAN_DURATION_MS := by
        by_contra hno
        simp [hno] at hcond
      rw [executeScan_early env ck cl fws creds db h h2]
      exact scanStatus_setCheckStatus db ck .failed h
    · have hcond2 : (hasCheck db ck
          && decide (env.elapsedAt 0 > MAX_SCAN_DURATION_MS)) = false :=
        Bool.eq_false_iff.mpr hcond
      rw [executeScan_not_early env ck cl fws creds db hcond2]
      rcases credLoop_cases env ck cl fws creds
          (initAcc (archiveFindings db ck cl fws))
        with hfin | ⟨acc2, heq, hch, hh, hex⟩
      · rw [hfin]
        dsimp only
        apply scanStatus_finishOutcome_terminal
        have hc := (credFold_spec env ck cl fws creds
          (initAcc (archiveFindings db ck cl fws))).1
        unfold hasCheck
        rw [hc]
        exact h
      · rw [heq]
        dsimp only
        right
        exact scanStatus_of_updChecks acc2.db db ck .failed hch h

/-- C10 amended witness: the timeout marking leaves a failed scan
unchanged even past the budget, and a concrete run ends terminal. -/
theorem c10_amended_witness :
    markTimedOutScan (MAX_SCAN_DURATION_MS + 1)
        { newCheck "s" "t" ["HIPAA"] with status := ScanStatus.failed }
      = { newCheck "s" "t" ["HIPAA"] with status := ScanStatus.failed } ∧
    (scanStatus (executeScan c10env "s" "t" ["HIPAA"]
        [{ id := "cr", provider := "aws" }] c4db) "s"
        = some ScanStatus.completed ∨
     scanStatus (executeScan c10env "s" "t" ["HIPAA"]
        [{ id := "cr", provider := "aws" }] c4db) "s"
        = some ScanStatus.failed) := by
  have h := c10_lifecycle_amended (MAX_SCAN_DURATION_MS + 1)
    { newCheck "s" "t" ["HIPAA"] with status := ScanStatus.failed }
    c10env "s" "t" ["HIPAA"] [{ id := "cr", provider := "aws" }] c4db
  exact ⟨h.1 (Or.inr rfl), h.2 (by decide)⟩

/-! ## Claim C9 -/

/-- The tenant of the double-submission scenario. -/
def c9client : Client := { id := "t", assigned_frameworks := ["HIPAA"] }

/-- An active credential of that tenant. -/
def c9cred : CredRow :=
  { id := "cr", client_id := "t", provider := "aws", is_active := true }

/-- A store that already holds an in-progress scan for the tenant. -/
def c9db : DB :=
  { clients := [c9client], credentials := [c9cred]
  , checks := [newCheck "s0" "t" ["HIPAA"]]
  , findings := [], findings_history := [], control_metadata := [] }

/-- C9: the POST scans handler performs no in-flight exclusivity check.
With a scan already in_progress for the tenant, the submission is
accepted (201 created) and a second in_progress scan row is inserted, so
two in-flight scans for the same (tenant, framework) pair exist, against
the claim that such a submission is rejected with no new Scan record. -/
theorem c9_no_exclusivity_check :
    scanStatus c9db "s0" = some ScanStatus.in_progress ∧
    (postScans c9db "t" none "s1").1 = PostScanResult.created "s1" ∧
    (postScans c9db "t" none "s1").2.checks
      = [newCheck "s0" "t" ["HIPAA"], newCheck "s1" "t" ["HIPAA"]] ∧
    ((postScans c9db "t" none "s1").2.checks.filter
      (fun c => c.client_id == "t"
        && c.status == ScanStatus.in_progress)).length = 2 :=
  ⟨by decide, by decide, by decide, by decide⟩

end LaunchSecure
